import Mathlib

/-!
Verification of the goenv library (typed environment-variable access with a
tag-driven struct loader) against its specification.

The Go source (goenv.go) is shallowly embedded below:
* the process environment is an association list queried like `os.Getenv`
  (absent keys read as the empty string);
* each scalar accessor (`TryGetEnv*`, `GetEnv*`, `MustGetEnv*`) is translated
  function by function;
* the struct loader (`Load` / `setField`) operates on an explicit list of
  field descriptors mirroring what `reflect` exposes (kind, type identity,
  settability, the `goenv` and `fallback` tags);
* the external stdlib parsers (strconv.Atoi, strconv.ParseBool,
  strconv.ParseFloat, time.Parse RFC3339, time.ParseDuration) are not part of
  the repository; they are modelled from the spec's documented contracts.
-/

namespace Goenv

/-- Error values of the library; one constructor per distinct `fmt.Errorf`
shape in goenv.go.  `fieldError` is the `"field %s: %w"` wrapping done by
`Load`. -/
inductive GoenvError where
  | notFound (key : String)
  | invalidFormat (what raw : String)
  | invalidFallback (what lit : String)
  | unsupportedStructType (tyName : String)
  | unsupportedFieldKind (kName : String)
  | invalidTarget (msg : String)
  | fieldError (fieldName : String) (err : GoenvError)
  deriving DecidableEq, Repr

/-- A process environment: an association list from variable names to raw
text, earlier entries shadowing later ones. -/
abbrev Env := List (String × String)

/-- Model of `os.Getenv`: the value of the first matching entry, or the empty
string when the key is absent (Go reports absence as `""`). -/
def osGetenv : Env → String → String
  | [], _ => ""
  | (k, v) :: rest, key => if k = key then v else osGetenv rest key

/-- Model of `os.Setenv`-style update used to state round-trip properties:
prepend an entry, shadowing any previous binding of the key. -/
def setEnv (env : Env) (key val : String) : Env := (key, val) :: env

/-! ### Decimal digit strings (shared by the parser and formatter models) -/

def isDigitCh (c : Char) : Bool := 48 ≤ c.toNat && c.toNat ≤ 57

def digitVal (c : Char) : Nat := c.toNat - 48

/-- Value of a most-significant-first digit string. -/
def digitsVal (cs : List Char) : Nat := cs.foldl (fun acc c => acc * 10 + digitVal c) 0

/-- Parse a non-empty, all-digit character list as a natural number. -/
def parseDigitsN (cs : List Char) : Option Nat :=
  if cs ≠ [] ∧ cs.all isDigitCh then some (digitsVal cs) else none

def digitCh (d : Nat) : Char := Char.ofNat (48 + d)

/-- Least-significant-first decimal digits of a natural number (empty for 0);
the fuel (any bound on the digit count, e.g. `n` itself) keeps the recursion
structural. -/
def natCharsRev (fuel n : Nat) : List Char :=
  match fuel with
  | 0 => []
  | fuel + 1 => if n = 0 then [] else digitCh (n % 10) :: natCharsRev fuel (n / 10)

/-- Most-significant-first decimal digits of a natural number (empty for 0). -/
def natChars (n : Nat) : List Char := (natCharsRev n n).reverse

/-- Decimal digits of a natural number, rendering 0 as "0". -/
def natCharsZ (n : Nat) : List Char := if n = 0 then ['0'] else natChars n

/-- Decimal rendering of an integer, with a leading minus sign when negative. -/
def intChars (n : Int) : List Char :=
  if n < 0 then '-' :: natCharsZ n.natAbs else natCharsZ n.natAbs

/-- Modelled from the spec: canonical decimal integer text (the formatter that
strconv.Itoa provides); external to the repository. -/
def itoa (n : Int) : String := ⟨intChars n⟩

/-! ### Models of the external scalar parsers -/

/-- Modelled from the spec: `base-10 signed integer parse` — the
strconv.Atoi contract (optional sign, decimal digits, 64-bit int range);
external to the repository. -/
def atoi (s : String) : Option Int :=
  match s.data with
  | [] => none
  | c :: cs =>
    if c = '-' then
      match parseDigitsN cs with
      | none => none
      | some n => if n ≤ 2 ^ 63 then some (-(n : Int)) else none
    else if c = '+' then
      match parseDigitsN cs with
      | none => none
      | some n => if n < 2 ^ 63 then some ((n : Int)) else none
    else
      match parseDigitsN (c :: cs) with
      | none => none
      | some n => if n < 2 ^ 63 then some ((n : Int)) else none

/-- Modelled from the spec: boolean parse accepting `canonical true/false
spellings and common aliases (1/0, t/f, true/false, case-insensitive per
convention of the chosen runtime's boolean parser)` — the strconv.ParseBool
spellings; external to the repository. -/
def parseBool (s : String) : Option Bool :=
  if s = "1" ∨ s = "t" ∨ s = "T" ∨ s = "true" ∨ s = "TRUE" ∨ s = "True" then some true
  else if s = "0" ∨ s = "f" ∨ s = "F" ∨ s = "false" ∨ s = "FALSE" ∨ s = "False" then some false
  else none

/-- Split an optional leading sign off a character list; the flag records
whether the sign was a minus. -/
def stripSign (cs : List Char) : Bool × List Char :=
  match cs with
  | [] => (false, [])
  | c :: rest => if c = '-' then (true, rest) else if c = '+' then (false, rest) else (false, cs)

/-- Exact rational value of a parsed decimal numeral with integer part `ip`
and fractional part `fp`. -/
def decValue (neg : Bool) (ip fp : List Char) : Rat :=
  let m : Int := ((digitsVal ip * 10 ^ fp.length + digitsVal fp : Nat) : Int)
  let q : Rat := (m : Rat) / ((10 : Rat) ^ fp.length)
  if neg then -q else q

/-- Modelled from the spec: `floating-point parse` for a `malformed numeral`
failure condition — decimal numerals (optional sign, digits, optional
fractional part) read exactly into rationals.  Bit-width rounding and
exponent notation of the external strconv.ParseFloat are not modelled. -/
def parseFloatQ (s : String) : Option Rat :=
  let (neg, cs) := stripSign s.data
  let ip := cs.takeWhile isDigitCh
  let rest := cs.dropWhile isDigitCh
  if rest = [] then
    if ip = [] then none else some (decValue neg ip [])
  else if rest.head? = some '.' then
    let fp := rest.tail
    if fp.all isDigitCh ∧ (ip ≠ [] ∨ fp ≠ []) then some (decValue neg ip fp) else none
  else none

/-! ### RFC3339 timestamps -/

/-- A calendar timestamp as the RFC3339 parser produces it: date, time and a
UTC offset in minutes. -/
structure TimeRFC where
  year : Nat
  month : Nat
  day : Nat
  hour : Nat
  minute : Nat
  second : Nat
  offMin : Int
  deriving DecidableEq, Repr

/-- Zero value of Go's time.Time: 0001-01-01T00:00:00Z. -/
def zeroTime : TimeRFC := ⟨1, 1, 1, 0, 0, 0, 0⟩

def isLeap (y : Nat) : Bool := y % 4 = 0 && (y % 100 ≠ 0 || y % 400 = 0)

def daysInMonth (y m : Nat) : Nat :=
  if m = 2 then (if isLeap y then 29 else 28)
  else if m = 4 ∨ m = 6 ∨ m = 9 ∨ m = 11 then 30
  else 31

/-- Calendar validity of a timestamp, as the strict RFC3339 parse enforces. -/
def validTimeB (t : TimeRFC) : Bool :=
  t.year ≤ 9999 && 1 ≤ t.month && t.month ≤ 12 &&
  1 ≤ t.day && t.day ≤ daysInMonth t.year t.month &&
  t.hour ≤ 23 && t.minute ≤ 59 && t.second ≤ 59 &&
  t.offMin.natAbs ≤ 23 * 60 + 59

/-- Read exactly two decimal digits. -/
def read2 (cs : List Char) : Option (Nat × List Char) :=
  match cs with
  | a :: b :: rest =>
    if isDigitCh a && isDigitCh b then some (digitVal a * 10 + digitVal b, rest) else none
  | _ => none

/-- Read exactly four decimal digits. -/
def read4 (cs : List Char) : Option (Nat × List Char) :=
  match read2 cs with
  | none => none
  | some (hi, rest) =>
    match read2 rest with
    | none => none
    | some (lo, rest') => some (hi * 100 + lo, rest')

/-- Consume one expected character. -/
def expectCh (c : Char) (cs : List Char) : Option (List Char) :=
  match cs with
  | [] => none
  | a :: rest => if a = c then some rest else none

/-- Parse the RFC3339 offset suffix: `Z`, or a signed `hh:mm`, ending the input. -/
def parseOffset (cs : List Char) : Option Int :=
  if cs = ['Z'] then some 0
  else
    match cs with
    | [] => none
    | c :: rest =>
      if c = '+' ∨ c = '-' then
        match read2 rest with
        | none => none
        | some (oh, r1) =>
          match expectCh ':' r1 with
          | none => none
          | some r2 =>
            match read2 r2 with
            | none => none
            | some (om, r3) =>
              if r3 = [] ∧ oh ≤ 23 ∧ om ≤ 59 then
                some (if c = '-' then -(((oh * 60 + om : Nat)) : Int) else ((oh * 60 + om : Nat) : Int))
              else none
      else none

/-- Modelled from the spec: `strict RFC3339 calendar-timestamp parse (date,
time, offset, e.g. 2025-08-24T12:34:56Z)` — the time.Parse(RFC3339) contract;
external to the repository. -/
def parseRFC3339 (s : String) : Option TimeRFC :=
  (read4 s.data).bind fun yr =>
  (expectCh '-' yr.2).bind fun r2 =>
  (read2 r2).bind fun mo =>
  (expectCh '-' mo.2).bind fun r4 =>
  (read2 r4).bind fun dy =>
  (expectCh 'T' dy.2).bind fun r6 =>
  (read2 r6).bind fun hr =>
  (expectCh ':' hr.2).bind fun r8 =>
  (read2 r8).bind fun mi =>
  (expectCh ':' mi.2).bind fun r10 =>
  (read2 r10).bind fun se =>
  (parseOffset se.2).bind fun o =>
  (let t : TimeRFC := ⟨yr.1, mo.1, dy.1, hr.1, mi.1, se.1, o⟩
   if validTimeB t then some t else none)

/-! ### Durations -/

/-- Unit table of the duration parser; multipliers in nanoseconds. -/
def unitLookup (u : List Char) : Option Nat :=
  if u = ['n', 's'] then some 1
  else if u = ['u', 's'] then some 1000
  else if u = ['µ', 's'] then some 1000
  else if u = ['μ', 's'] then some 1000
  else if u = ['m', 's'] then some 1000000
  else if u = ['s'] then some 1000000000
  else if u = ['m'] then some 60000000000
  else if u = ['h'] then some 3600000000000
  else none

/-- Parse the repeated magnitude+unit legs of a duration literal,
accumulating nanoseconds; the fuel bounds the number of legs. -/
def parseLegs : Nat → List Char → Nat → Option Nat
  | _, [], acc => some acc
  | 0, _ :: _, _ => none
  | fuel + 1, c :: cs, acc =>
    let ds := (c :: cs).takeWhile isDigitCh
    let rest := (c :: cs).dropWhile isDigitCh
    match parseDigitsN ds with
    | none => none
    | some v =>
      let u := rest.takeWhile fun x => !isDigitCh x
      let rest' := rest.dropWhile fun x => !isDigitCh x
      match unitLookup u with
      | none => none
      | some mult => parseLegs fuel rest' (acc + v * mult)

/-- Modelled from the spec: `compound duration literal combining numeric
magnitude + unit suffixes (e.g. 1h30m, 250ms, 42s)` — the time.ParseDuration
contract (optional sign, bare "0" allowed, result in nanoseconds within the
int64 range); fractional magnitudes are not modelled.  External to the
repository. -/
def parseDuration (s : String) : Option Int :=
  let (neg, cs) := stripSign s.data
  if cs = ['0'] then some 0
  else if cs = [] then none
  else
    match parseLegs cs.length cs 0 with
    | none => none
    | some n =>
      if neg then (if n ≤ 2 ^ 63 then some (-(n : Int)) else none)
      else (if n < 2 ^ 63 then some ((n : Int)) else none)

/-! ### Scalar accessors (translated from goenv.go) -/

instance {ε α : Type} [DecidableEq ε] [DecidableEq α] : DecidableEq (Except ε α) := fun a b =>
  match a, b with
  | .ok x, .ok y =>
    if h : x = y then isTrue (by rw [h]) else isFalse (by intro hh; injection hh; contradiction)
  | .error x, .error y =>
    if h : x = y then isTrue (by rw [h]) else isFalse (by intro hh; injection hh; contradiction)
  | .ok _, .error _ => isFalse (by intro hh; cases hh)
  | .error _, .ok _ => isFalse (by intro hh; cases hh)

/-- Result of a call that may abort: `panicked` embeds a Go `panic`. -/
inductive GoResult (α : Type) where
  | ok (a : α)
  | panicked (e : GoenvError)
  deriving DecidableEq, Repr

def GoResult.isPanic {α : Type} : GoResult α → Bool
  | .ok _ => false
  | .panicked _ => true

/-- TryGetEnv: the value of the variable, or an error when unset or empty. -/
def tryGetEnv (env : Env) (key : String) : Except GoenvError String :=
  if osGetenv env key ≠ "" then .ok (osGetenv env key) else .error (.notFound key)

/-- TryGetEnvInt: integer value of the variable, via strconv.Atoi. -/
def tryGetEnvInt (env : Env) (key : String) : Except GoenvError Int :=
  if osGetenv env key ≠ "" then
    match atoi (osGetenv env key) with
    | none => .error (.invalidFormat "integer" (osGetenv env key))
    | some i => .ok i
  else .error (.notFound key)

/-- TryGetEnvFloat32: float32 value of the variable, via strconv.ParseFloat. -/
def tryGetEnvFloat32 (env : Env) (key : String) : Except GoenvError Rat :=
  if osGetenv env key ≠ "" then
    match parseFloatQ (osGetenv env key) with
    | none => .error (.invalidFormat "float32" (osGetenv env key))
    | some f => .ok f
  else .error (.notFound key)

/-- TryGetEnvFloat64: float64 value of the variable, via strconv.ParseFloat. -/
def tryGetEnvFloat64 (env : Env) (key : String) : Except GoenvError Rat :=
  if osGetenv env key ≠ "" then
    match parseFloatQ (osGetenv env key) with
    | none => .error (.invalidFormat "float64" (osGetenv env key))
    | some f => .ok f
  else .error (.notFound key)

/-- TryGetEnvBool: boolean value of the variable, via strconv.ParseBool. -/
def tryGetEnvBool (env : Env) (key : String) : Except GoenvError Bool :=
  if osGetenv env key ≠ "" then
    match parseBool (osGetenv env key) with
    | none => .error (.invalidFormat "bool" (osGetenv env key))
    | some b => .ok b
  else .error (.notFound key)

/-- TryGetEnvTime: RFC3339 time value of the variable. -/
def tryGetEnvTime (env : Env) (key : String) : Except GoenvError TimeRFC :=
  if osGetenv env key ≠ "" then
    match parseRFC3339 (osGetenv env key) with
    | none => .error (.invalidFormat "time" (osGetenv env key))
    | some t => .ok t
  else .error (.notFound key)

/-- TryGetEnvDuration: duration value of the variable, via time.ParseDuration. -/
def tryGetEnvDuration (env : Env) (key : String) : Except GoenvError Int :=
  if osGetenv env key ≠ "" then
    match parseDuration (osGetenv env key) with
    | none => .error (.invalidFormat "duration" (osGetenv env key))
    | some d => .ok d
  else .error (.notFound key)

/-- GetEnv: the value of the variable, or the fallback when unset or empty. -/
def getEnv (env : Env) (key fallback : String) : String :=
  match tryGetEnv env key with
  | .error _ => fallback
  | .ok v => v

/-- GetEnvInt: the integer value, or the fallback on any failure. -/
def getEnvInt (env : Env) (key : String) (fallback : Int) : Int :=
  match tryGetEnvInt env key with
  | .error _ => fallback
  | .ok v => v

/-- GetEnvFloat32: the float32 value, or the fallback on any failure. -/
def getEnvFloat32 (env : Env) (key : String) (fallback : Rat) : Rat :=
  match tryGetEnvFloat32 env key with
  | .error _ => fallback
  | .ok v => v

/-- GetEnvFloat64: the float64 value, or the fallback on any failure. -/
def getEnvFloat64 (env : Env) (key : String) (fallback : Rat) : Rat :=
  match tryGetEnvFloat64 env key with
  | .error _ => fallback
  | .ok v => v

/-- GetEnvBool: the boolean value, or the fallback on any failure. -/
def getEnvBool (env : Env) (key : String) (fallback : Bool) : Bool :=
  match tryGetEnvBool env key with
  | .error _ => fallback
  | .ok v => v

/-- GetEnvTime: the time value, or the fallback on any failure. -/
def getEnvTime (env : Env) (key : String) (fallback : TimeRFC) : TimeRFC :=
  match tryGetEnvTime env key with
  | .error _ => fallback
  | .ok v => v

/-- GetEnvDuration: the duration value, or the fallback on any failure. -/
def getEnvDuration (env : Env) (key : String) (fallback : Int) : Int :=
  match tryGetEnvDuration env key with
  | .error _ => fallback
  | .ok v => v

/-- MustGetEnv: the value of the variable; panics when unset or empty. -/
def mustGetEnv (env : Env) (key : String) : GoResult String :=
  match tryGetEnv env key with
  | .error e => .panicked e
  | .ok v => .ok v

/-- MustGetEnvInt: the integer value; panics on any failure. -/
def mustGetEnvInt (env : Env) (key : String) : GoResult Int :=
  match tryGetEnvInt env key with
  | .error e => .panicked e
  | .ok v => .ok v

/-- MustGetEnvFloat32: the float32 value; panics on any failure. -/
def mustGetEnvFloat32 (env : Env) (key : String) : GoResult Rat :=
  match tryGetEnvFloat32 env key with
  | .error e => .panicked e
  | .ok v => .ok v

/-- MustGetEnvFloat64: the float64 value; panics on any failure. -/
def mustGetEnvFloat64 (env : Env) (key : String) : GoResult Rat :=
  match tryGetEnvFloat64 env key with
  | .error e => .panicked e
  | .ok v => .ok v

/-- MustGetEnvBool: the boolean value; panics on any failure. -/
def mustGetEnvBool (env : Env) (key : String) : GoResult Bool :=
  match tryGetEnvBool env key with
  | .error e => .panicked e
  | .ok v => .ok v

/-- MustGetEnvTime: the time value; panics on any failure. -/
def mustGetEnvTime (env : Env) (key : String) : GoResult TimeRFC :=
  match tryGetEnvTime env key with
  | .error e => .panicked e
  | .ok v => .ok v

/-- MustGetEnvDuration: the duration value; panics on any failure. -/
def mustGetEnvDuration (env : Env) (key : String) : GoResult Int :=
  match tryGetEnvDuration env key with
  | .error e => .panicked e
  | .ok v => .ok v

/-! ### The struct loader (translated from Load / setField in goenv.go) -/

/-- Static Go types a struct field can carry, as far as `setField`'s dispatch
can distinguish them: `reflect.Kind` plus the two exact-type tests
(`time.Duration` among the signed-integer kinds, `time.Time` among the struct
kinds).  Unsigned-integer kinds and every other kind fall to the switch's
default case. -/
inductive GoType where
  | stringT
  | intT
  | int8T
  | int16T
  | int32T
  | int64T
  | durationT
  | uintT
  | uint8T
  | uint16T
  | uint32T
  | uint64T
  | uintptrT
  | float32T
  | float64T
  | boolT
  | timeT
  | structT (name : String)
  | otherKind (name : String)
  deriving DecidableEq, Repr

/-- The `reflect.Kind` groups that `setField`'s switch cases on; integer
kinds carry their bit width (the native `int` is 64-bit). -/
inductive FieldKind where
  | stringK
  | intK (w : Nat)
  | float32K
  | float64K
  | boolK
  | structK
  | otherK (name : String)
  deriving DecidableEq, Repr

/-- Model of `reflect.Value.Kind` on a field's static type. -/
def kindOf : GoType → FieldKind
  | .stringT => .stringK
  | .intT => .intK 64
  | .int8T => .intK 8
  | .int16T => .intK 16
  | .int32T => .intK 32
  | .int64T => .intK 64
  | .durationT => .intK 64
  | .uintT => .otherK "uint"
  | .uint8T => .otherK "uint8"
  | .uint16T => .otherK "uint16"
  | .uint32T => .otherK "uint32"
  | .uint64T => .otherK "uint64"
  | .uintptrT => .otherK "uintptr"
  | .float32T => .float32K
  | .float64T => .float64K
  | .boolT => .boolK
  | .timeT => .structK
  | .structT _ => .structK
  | .otherKind name => .otherK name

/-- Printed name of a struct type, used by the "unsupported struct type"
error message. -/
def structName : GoType → String
  | .timeT => "time.Time"
  | .structT n => n
  | _ => ""

/-- Printed name of a kind, used by the "unsupported field type" message. -/
def kindErrName (t : GoType) : String :=
  match kindOf t with
  | .otherK n => n
  | _ => ""

/-- Bit width a signed-integer-kind field stores at (64 otherwise). -/
def intWidthOf (t : GoType) : Nat :=
  match kindOf t with
  | .intK w => w
  | _ => 64

/-- Runtime value of a struct field in the embedding. -/
inductive Value where
  | str (s : String)
  | int (n : Int)
  | float (q : Rat)
  | bool (b : Bool)
  | time (t : TimeRFC)
  | other (t : GoType)
  deriving DecidableEq, Repr

/-- Two's-complement reduction of an integer into `w` bits. -/
def wrapInt (w : Nat) (x : Int) : Int :=
  (x + 2 ^ (w - 1)) % 2 ^ w - 2 ^ (w - 1)

/-- Model of `reflect.Value.SetInt`: the Go conversion to the field's width
truncates two's-complement style. -/
def setIntV (w : Nat) (x : Int) : Value := .int (wrapInt w x)

/-- Zero value of a field of the given type. -/
def zeroValue : GoType → Value
  | .stringT => .str ""
  | .intT => .int 0
  | .int8T => .int 0
  | .int16T => .int 0
  | .int32T => .int 0
  | .int64T => .int 0
  | .durationT => .int 0
  | .float32T => .float 0
  | .float64T => .float 0
  | .boolT => .bool false
  | .timeT => .time zeroTime
  | t => .other t

/-- A struct field as `Load` sees it: its name, static type, settability and
the two tags. -/
structure Field where
  name : String
  typ : GoType
  canSet : Bool
  goenvTag : String
  fallbackTag : String
  deriving DecidableEq, Repr

/-- setField: populate one field from the environment, falling back to the
`fallback` tag literal; translated case by case from goenv.go. -/
def setField (env : Env) (f : Field) : Except GoenvError Value :=
  match kindOf f.typ with
  | .stringK =>
    match tryGetEnv env f.goenvTag with
    | .error err => if f.fallbackTag ≠ "" then .ok (.str f.fallbackTag) else .error err
    | .ok v => .ok (.str v)
  | .intK w =>
    if f.typ = .durationT then
      match tryGetEnvDuration env f.goenvTag with
      | .error err =>
        if f.fallbackTag ≠ "" then
          match parseDuration f.fallbackTag with
          | none => .error (.invalidFallback "duration" f.fallbackTag)
          | some d => .ok (setIntV w d)
        else .error err
      | .ok v => .ok (setIntV w v)
    else
      match tryGetEnvInt env f.goenvTag with
      | .error err =>
        if f.fallbackTag ≠ "" then
          match atoi f.fallbackTag with
          | none => .error (.invalidFallback "integer" f.fallbackTag)
          | some i => .ok (setIntV w i)
        else .error err
      | .ok v => .ok (setIntV w v)
  | .float32K =>
    match tryGetEnvFloat32 env f.goenvTag with
    | .error err =>
      if f.fallbackTag ≠ "" then
        match parseFloatQ f.fallbackTag with
        | none => .error (.invalidFallback "float32" f.fallbackTag)
        | some q => .ok (.float q)
      else .error err
    | .ok v => .ok (.float v)
  | .float64K =>
    match tryGetEnvFloat64 env f.goenvTag with
    | .error err =>
      if f.fallbackTag ≠ "" then
        match parseFloatQ f.fallbackTag with
        | none => .error (.invalidFallback "float64" f.fallbackTag)
        | some q => .ok (.float q)
      else .error err
    | .ok v => .ok (.float v)
  | .boolK =>
    match tryGetEnvBool env f.goenvTag with
    | .error err =>
      if f.fallbackTag ≠ "" then
        match parseBool f.fallbackTag with
        | none => .error (.invalidFallback "bool" f.fallbackTag)
        | some b => .ok (.bool b)
      else .error err
    | .ok v => .ok (.bool v)
  | .structK =>
    if f.typ = .timeT then
      match tryGetEnvTime env f.goenvTag with
      | .error err =>
        if f.fallbackTag ≠ "" then
          match parseRFC3339 f.fallbackTag with
          | none => .error (.invalidFallback "time" f.fallbackTag)
          | some t => .ok (.time t)
        else .error err
      | .ok v => .ok (.time v)
    else .error (.unsupportedStructType (structName f.typ))
  | .otherK name => .error (.unsupportedFieldKind name)

/-- The field loop of `Load`: skip non-settable and untagged fields, populate
the rest, stop at the first failure wrapping it with the field name.  The
returned list is the struct's (possibly partially updated) field state. -/
def loadGo (env : Env) : List (Field × Value) → Option GoenvError × List (Field × Value)
  | [] => (none, [])
  | (f, v) :: rest =>
    if !f.canSet then
      let r := loadGo env rest
      (r.1, (f, v) :: r.2)
    else if f.goenvTag = "" then
      let r := loadGo env rest
      (r.1, (f, v) :: r.2)
    else
      match setField env f with
      | .error e => (some (.fieldError f.name e), (f, v) :: rest)
      | .ok v' =>
        let r := loadGo env rest
        (r.1, (f, v') :: r.2)

/-- The argument of `Load` as `reflect.ValueOf` can classify it. -/
inductive LoadArg where
  | notPointer (kindName : String)
  | nilPointer
  | ptrToNonStruct (elemKind : String)
  | ptrToStruct (fields : List (Field × Value))
  deriving DecidableEq, Repr

/-- Load: validate the target, then run the field loop; returns the error (if
any) and the final state of the argument. -/
def Load (env : Env) : LoadArg → Option GoenvError × LoadArg
  | .notPointer k =>
    (some (.invalidTarget "Load expects a non-nil pointer to a struct"), .notPointer k)
  | .nilPointer =>
    (some (.invalidTarget "Load expects a non-nil pointer to a struct"), .nilPointer)
  | .ptrToNonStruct k =>
    (some (.invalidTarget ("Load expects a pointer to a struct, got " ++ k)), .ptrToNonStruct k)
  | .ptrToStruct fs =>
    let r := loadGo env fs
    (r.1, .ptrToStruct r.2)

/-- Load, observed through the panic-aware result type shared with the
MustGet family: the source's `Load` contains no `panic`, so its embedding
never produces `GoResult.panicked`. -/
def LoadOutcome (env : Env) (arg : LoadArg) : GoResult (Option GoenvError × LoadArg) :=
  .ok (Load env arg)

/-! ### The supported scalar types, bundled for type-uniform statements -/

/-- The seven supported scalar types of the accessor triples. -/
inductive ScalarTy where
  | text
  | integer
  | float32
  | float64
  | boolean
  | timestamp
  | duration
  deriving DecidableEq, Repr

/-- Lean type of the values each scalar type denotes in the embedding. -/
abbrev tyDenote : ScalarTy → Type
  | .text => String
  | .integer => Int
  | .float32 => Rat
  | .float64 => Rat
  | .boolean => Bool
  | .timestamp => TimeRFC
  | .duration => Int

instance (t : ScalarTy) : DecidableEq (tyDenote t) := by
  cases t <;> (simp only [tyDenote]; infer_instance)

/-- The parser each scalar type's accessor uses (text never fails to parse). -/
def parseS : (t : ScalarTy) → String → Option (tyDenote t)
  | .text, s => some s
  | .integer, s => atoi s
  | .float32, s => parseFloatQ s
  | .float64, s => parseFloatQ s
  | .boolean, s => parseBool s
  | .timestamp, s => parseRFC3339 s
  | .duration, s => parseDuration s

/-- Tag used in each type's invalid-format error message. -/
def formatName : ScalarTy → String
  | .text => "string"
  | .integer => "integer"
  | .float32 => "float32"
  | .float64 => "float64"
  | .boolean => "bool"
  | .timestamp => "time"
  | .duration => "duration"

/-- The TryGet accessor of each scalar type. -/
def tryGetS : (t : ScalarTy) → Env → String → Except GoenvError (tyDenote t)
  | .text => tryGetEnv
  | .integer => tryGetEnvInt
  | .float32 => tryGetEnvFloat32
  | .float64 => tryGetEnvFloat64
  | .boolean => tryGetEnvBool
  | .timestamp => tryGetEnvTime
  | .duration => tryGetEnvDuration

/-- The Get (fallback-on-failure) accessor of each scalar type. -/
def getS : (t : ScalarTy) → Env → String → tyDenote t → tyDenote t
  | .text => getEnv
  | .integer => getEnvInt
  | .float32 => getEnvFloat32
  | .float64 => getEnvFloat64
  | .boolean => getEnvBool
  | .timestamp => getEnvTime
  | .duration => getEnvDuration

/-- The MustGet (panic-on-failure) accessor of each scalar type. -/
def mustGetS : (t : ScalarTy) → Env → String → GoResult (tyDenote t)
  | .text => mustGetEnv
  | .integer => mustGetEnvInt
  | .float32 => mustGetEnvFloat32
  | .float64 => mustGetEnvFloat64
  | .boolean => mustGetEnvBool
  | .timestamp => mustGetEnvTime
  | .duration => mustGetEnvDuration

/-! ### Canonical text forms and literal validity -/

/-- Fuelled extraction of the greatest power of `p` dividing `n`. -/
def depowF : Nat → Nat → Nat → Nat × Nat
  | 0, _, n => (0, n)
  | fuel + 1, p, n =>
    if 2 ≤ p ∧ 0 < n ∧ n % p = 0 then
      let r := depowF fuel p (n / p)
      (r.1 + 1, r.2)
    else (0, n)

/-- Greatest power of `p` dividing `n`, with the cofactor: `depow p n = (k, m)`
with `n = p ^ k * m` and `p` not dividing `m` (for `2 ≤ p`, `0 < n`). -/
def depow (p : Nat) (n : Nat) : Nat × Nat := depowF n p n

/-- Smallest exponent `k` with `n ∣ 10 ^ k`, when one exists. -/
def decExp (n : Nat) : Option Nat :=
  let a := depow 2 n
  let b := depow 5 a.2
  if b.2 = 1 then some (max a.1 b.1) else none

/-- Modelled from the spec: `decimal float text` — a canonical decimal
rendering for rationals whose denominator divides a power of ten. -/
def canonFloatQ (q : Rat) : String :=
  match decExp q.den with
  | none => "0"
  | some k =>
    let m := q.num.natAbs * 10 ^ k / q.den
    let frac := natCharsZ (m % 10 ^ k)
    ⟨(if q.num < 0 then ['-'] else []) ++ natCharsZ (m / 10 ^ k) ++
      (if k = 0 then [] else '.' :: (List.replicate (k - frac.length) '0' ++ frac))⟩

/-- Two-digit zero-padded decimal rendering. -/
def pad2 (n : Nat) : List Char := [digitCh (n / 10 % 10), digitCh (n % 10)]

/-- Four-digit zero-padded decimal rendering. -/
def pad4 (n : Nat) : List Char :=
  [digitCh (n / 1000 % 10), digitCh (n / 100 % 10), digitCh (n / 10 % 10), digitCh (n % 10)]

/-- RFC3339 offset suffix: `Z` for UTC, otherwise a signed `hh:mm`. -/
def fmtOffset (o : Int) : List Char :=
  if o = 0 then ['Z']
  else (if o < 0 then '-' else '+') :: (pad2 (o.natAbs / 60) ++ [':'] ++ pad2 (o.natAbs % 60))

/-- Modelled from the spec: `RFC3339 timestamp text`, the canonical rendering
of a calendar timestamp. -/
def fmtRFC3339 (t : TimeRFC) : List Char :=
  pad4 t.year ++ ['-'] ++ pad2 t.month ++ ['-'] ++ pad2 t.day ++ ['T'] ++
  pad2 t.hour ++ [':'] ++ pad2 t.minute ++ [':'] ++ pad2 t.second ++ fmtOffset t.offMin

/-- Modelled from the spec: canonical text form of each scalar value
(`decimal integer text, decimal float text, boolean spelling, RFC3339
timestamp text, or duration literal`); the duration literal is rendered in
exact nanoseconds. -/
def canonS : (t : ScalarTy) → tyDenote t → String
  | .text, s => s
  | .integer, n => itoa n
  | .float32, q => canonFloatQ q
  | .float64, q => canonFloatQ q
  | .boolean, b => if b then "true" else "false"
  | .timestamp, t => ⟨fmtRFC3339 t⟩
  | .duration, d => ⟨intChars d ++ ['n', 's']⟩

/-- Validity of a literal of each scalar type: integers and durations must
fit the 64-bit range, floats must denote a terminating decimal, timestamps
must be calendar-valid. -/
def validLitB : (t : ScalarTy) → tyDenote t → Bool
  | .text, _ => true
  | .integer, n => decide (-(2 ^ 63) ≤ n ∧ n < 2 ^ 63)
  | .float32, q => (decExp q.den).isSome
  | .float64, q => (decExp q.den).isSome
  | .boolean, _ => true
  | .timestamp, t => validTimeB t
  | .duration, d => decide (-(2 ^ 63) ≤ d ∧ d < 2 ^ 63)

/-! ### Helper predicates for the loader claims -/

/-- A field is eligible when it is settable and carries a binding-key tag. -/
def eligible (f : Field) : Bool := f.canSet && f.goenvTag ≠ ""

/-- What `setField` stores for a field of type `t` when the text `s` parses
(the successful environment path, and equally the fallback path). -/
def fieldParse (t : GoType) (s : String) : Option Value :=
  match kindOf t with
  | .stringK => some (.str s)
  | .intK w =>
    if t = .durationT then (parseDuration s).map (setIntV w)
    else (atoi s).map (setIntV w)
  | .float32K => (parseFloatQ s).map .float
  | .float64K => (parseFloatQ s).map .float
  | .boolK => (parseBool s).map .bool
  | .structK => if t = .timeT then (parseRFC3339 s).map .time else none
  | .otherK _ => none

/-- Types `setField` can populate at all. -/
def isSupported (t : GoType) : Bool :=
  match kindOf t with
  | .otherK _ => false
  | .structK => t = .timeT
  | _ => true

/-- Tag used in the invalid-fallback error message of each supported type. -/
def fallbackKindName (t : GoType) : String :=
  match kindOf t with
  | .stringK => ""
  | .intK _ => if t = .durationT then "duration" else "integer"
  | .float32K => "float32"
  | .float64K => "float64"
  | .boolK => "bool"
  | .structK => "time"
  | .otherK _ => ""

/-- Unsigned-integer kinds (these fall to the switch's default case). -/
def isUintKind (t : GoType) : Bool :=
  match t with
  | .uintT => true
  | .uint8T => true
  | .uint16T => true
  | .uint32T => true
  | .uint64T => true
  | .uintptrT => true
  | _ => false

/-- A freshly allocated target struct: every field at its zero value. -/
def withZero (fs : List Field) : List (Field × Value) :=
  fs.map fun f => (f, zeroValue f.typ)

/-- The payload of a successful `Except`, with a default for errors. -/
def getOk : Except GoenvError Value → Value → Value
  | .ok v, _ => v
  | .error _, d => d

/-- Whether an `Except` is a success. -/
def isOkB : Except GoenvError Value → Bool
  | .ok _ => true
  | .error _ => false

/-- Expected struct state when the field loop has processed exactly the first
`j` fields of a zero-initialised struct: processed eligible fields hold the
value `setField` produced, everything else stays at its zero value. -/
def loadedUpTo (env : Env) : Nat → List Field → List (Field × Value)
  | _, [] => []
  | 0, f :: fs => (f, zeroValue f.typ) :: loadedUpTo env 0 fs
  | j + 1, f :: fs =>
    (f, if eligible f = true then getOk (setField env f) (zeroValue f.typ)
        else zeroValue f.typ) :: loadedUpTo env j fs

/-! ### Concrete fixtures used by the witnesses -/

/-- A three-field struct whose middle field's variable is missing. -/
def c1Fields : List Field :=
  [⟨"A", .intT, true, "AK", ""⟩, ⟨"B", .intT, true, "BMISS", ""⟩, ⟨"C", .stringT, true, "CK", ""⟩]

/-- Environment satisfying the first and third fields of `c1Fields` only. -/
def c1Env : Env := [("AK", "1"), ("CK", "x")]

/-- An int field followed by a uint8 field, both tagged and settable. -/
def c9Fields : List Field :=
  [⟨"A", .intT, true, "C9MISS", ""⟩, ⟨"B", .uint8T, true, "C9B", ""⟩]

/-- Environment providing only the uint8 field's variable of `c9Fields`. -/
def c9Env : Env := [("C9B", "5")]

/-! ## Basic lemmas about the environment and digit strings -/

@[simp]
lemma osGetenv_setEnv (env : Env) (k v : String) : osGetenv (setEnv env k v) k = v := by
  simp [osGetenv, setEnv]

lemma digitCh_isDigit {d : Nat} (h : d < 10) : isDigitCh (digitCh d) = true := by
  interval_cases d <;> decide

lemma digitVal_digitCh {d : Nat} (h : d < 10) : digitVal (digitCh d) = d := by
  interval_cases d <;> decide

lemma isDigitCh_ne_dash {c : Char} (h : isDigitCh c = true) : ¬ c = '-' := by
  intro hc; subst hc; simp [isDigitCh] at h

lemma isDigitCh_ne_plus {c : Char} (h : isDigitCh c = true) : ¬ c = '+' := by
  intro hc; subst hc; simp [isDigitCh] at h

lemma isDigitCh_ne_dot {c : Char} (h : isDigitCh c = true) : ¬ c = '.' := by
  intro hc; subst hc; simp [isDigitCh] at h

lemma digitsVal_foldl_shift (a : Nat) (l : List Char) :
    List.foldl (fun acc c => acc * 10 + digitVal c) a l = a * 10 ^ l.length + digitsVal l := by
  induction l generalizing a with
  | nil => simp [digitsVal]
  | cons c l ih =>
    simp only [List.foldl_cons, List.length_cons, digitsVal]
    rw [ih (a * 10 + digitVal c), ih (0 * 10 + digitVal c)]
    ring

lemma digitsVal_append (l1 l2 : List Char) :
    digitsVal (l1 ++ l2) = digitsVal l1 * 10 ^ l2.length + digitsVal l2 := by
  unfold digitsVal
  rw [List.foldl_append]
  exact digitsVal_foldl_shift _ _

lemma digitsVal_singleton (c : Char) : digitsVal [c] = digitVal c := by
  simp [digitsVal]

lemma natCharsRev_all (fuel n : Nat) : (natCharsRev fuel n).all isDigitCh = true := by
  induction fuel generalizing n with
  | zero => simp [natCharsRev]
  | succ fuel ih =>
    simp only [natCharsRev]
    split
    · simp
    · simp only [List.all_cons, Bool.and_eq_true]
      exact ⟨digitCh_isDigit (Nat.mod_lt _ (by omega)), ih _⟩

lemma digitsVal_natCharsRev {fuel n : Nat} (h : n ≤ fuel) :
    digitsVal (natCharsRev fuel n).reverse = n := by
  induction fuel generalizing n with
  | zero =>
    have : n = 0 := by omega
    subst this; simp [natCharsRev, digitsVal]
  | succ fuel ih =>
    simp only [natCharsRev]
    split
    · subst ‹n = 0›; simp [digitsVal]
    · rename_i hn
      have hdiv : n / 10 < n := Nat.div_lt_self (Nat.pos_of_ne_zero hn) (by omega)
      rw [List.reverse_cons, digitsVal_append, digitsVal_singleton,
        digitVal_digitCh (Nat.mod_lt _ (by omega)), ih (by omega)]
      simp only [List.length_singleton, pow_one]
      omega

lemma natCharsRev_length_le {fuel n k : Nat} (h : n < 10 ^ k) :
    (natCharsRev fuel n).length ≤ k := by
  induction fuel generalizing n k with
  | zero => simp [natCharsRev]
  | succ fuel ih =>
    simp only [natCharsRev]
    split
    · simp
    · rename_i hn
      have hk : k ≠ 0 := by
        intro h0; subst h0; simp at h; omega
      obtain ⟨k', rfl⟩ : ∃ k', k = k' + 1 := ⟨k - 1, by omega⟩
      simp only [List.length_cons]
      have : n / 10 < 10 ^ k' := by
        rw [Nat.div_lt_iff_lt_mul (by omega)]
        calc n < 10 ^ (k' + 1) := h
          _ = 10 ^ k' * 10 := by ring
      exact Nat.succ_le_succ (ih this)

lemma natCharsZ_ne_nil (n : Nat) : natCharsZ n ≠ [] := by
  unfold natCharsZ
  split
  · simp
  · rename_i hn
    unfold natChars
    obtain ⟨m, rfl⟩ : ∃ m, n = m + 1 := ⟨n - 1, by omega⟩
    simp [natCharsRev]

lemma natCharsZ_all (n : Nat) : (natCharsZ n).all isDigitCh = true := by
  unfold natCharsZ
  split
  · decide
  · unfold natChars
    rw [List.all_reverse]
    exact natCharsRev_all _ _

lemma digitsVal_natCharsZ (n : Nat) : digitsVal (natCharsZ n) = n := by
  unfold natCharsZ
  split
  · rename_i h; subst h; decide
  · exact digitsVal_natCharsRev le_rfl

lemma parseDigitsN_natCharsZ (n : Nat) : parseDigitsN (natCharsZ n) = some n := by
  unfold parseDigitsN
  rw [if_pos ⟨natCharsZ_ne_nil n, natCharsZ_all n⟩, digitsVal_natCharsZ]

lemma natCharsZ_length_le {n k : Nat} (hk : 0 < k) (h : n < 10 ^ k) :
    (natCharsZ n).length ≤ k := by
  unfold natCharsZ
  split
  · simpa using hk
  · unfold natChars
    rw [List.length_reverse]
    exact natCharsRev_length_le h

/-- Splitting a character list at the first character failing `p`. -/
lemma takeWhile_dropWhile_append {p : Char → Bool} {l1 : List Char} (l2 : List Char) {c : Char}
    (h1 : l1.all p = true) (h2 : p c = false) :
    (l1 ++ c :: l2).takeWhile p = l1 ∧ (l1 ++ c :: l2).dropWhile p = c :: l2 := by
  induction l1 with
  | nil => simp [List.takeWhile, List.dropWhile, h2]
  | cons a l1 ih =>
    simp only [List.all_cons, Bool.and_eq_true] at h1
    simp [List.takeWhile_cons, List.dropWhile_cons, h1.1, ih h1.2]

lemma takeWhile_all {p : Char → Bool} {l : List Char} (h : l.all p = true) :
    l.takeWhile p = l ∧ l.dropWhile p = [] := by
  induction l with
  | nil => simp
  | cons a l ih =>
    simp only [List.all_cons, Bool.and_eq_true] at h
    simp [List.takeWhile_cons, List.dropWhile_cons, h.1, ih h.2]

/-- Round trip of the decimal integer formatter through strconv.Atoi's model. -/
lemma atoi_itoa {n : Int} (h1 : -(2 ^ 63) ≤ n) (h2 : n < 2 ^ 63) : atoi (itoa n) = some n := by
  have e1 : (2 : Nat) ^ 63 = 9223372036854775808 := by norm_num
  have e2 : (2 : Int) ^ 63 = 9223372036854775808 := by norm_num
  rw [e2] at h1 h2
  unfold itoa atoi intChars
  by_cases hn : n < 0
  · rw [if_pos hn]
    show (match ('-' :: natCharsZ n.natAbs : List Char) with
      | [] => none
      | c :: cs => _) = some n
    simp only [if_pos rfl, parseDigitsN_natCharsZ]
    rw [if_pos trivial, if_pos (by simp only [e1]; omega)]
    congr 1
    omega
  · rw [if_neg hn]
    obtain ⟨c, cs, hcc⟩ := List.exists_cons_of_ne_nil (natCharsZ_ne_nil n.natAbs)
    have hall := natCharsZ_all n.natAbs
    rw [hcc] at hall ⊢
    simp only [List.all_cons, Bool.and_eq_true] at hall
    show (match (c :: cs : List Char) with
      | [] => none
      | c :: cs => _) = some n
    simp only
    rw [if_neg (isDigitCh_ne_dash hall.1), if_neg (isDigitCh_ne_plus hall.1), ← hcc]
    simp only [parseDigitsN_natCharsZ]
    rw [if_pos (by simp only [e1]; omega)]
    congr 1
    omega

/-! ## Claim C7: target validation -/

/-- C7: Load fails with an invalid-target error when the argument is not a
pointer, is a nil pointer, or points to a non-struct, and in those cases the
argument's state is untouched; only a non-nil pointer to a struct reaches the
field loop. -/
theorem c7_invalid_target (env : Env) :
    (∀ k, Load env (.notPointer k) =
      (some (.invalidTarget "Load expects a non-nil pointer to a struct"), .notPointer k)) ∧
    (Load env .nilPointer =
      (some (.invalidTarget "Load expects a non-nil pointer to a struct"), .nilPointer)) ∧
    (∀ k, Load env (.ptrToNonStruct k) =
      (some (.invalidTarget ("Load expects a pointer to a struct, got " ++ k)),
        .ptrToNonStruct k)) ∧
    (∀ fs, Load env (.ptrToStruct fs) = ((loadGo env fs).1, .ptrToStruct (loadGo env fs).2)) :=
  ⟨fun _ => rfl, rfl, fun _ => rfl, fun _ => rfl⟩

/-! ## Claim C10: Load never panics -/

/-- C10: through the panic-aware result type, Load never yields a panic for
any argument and environment — every failure is a returned error — while the
MustGet accessors panic exactly when the corresponding TryGet fails. -/
theorem c10_load_never_panics :
    (∀ (env : Env) (arg : LoadArg), (LoadOutcome env arg).isPanic = false) ∧
    (∀ (t : ScalarTy) (env : Env) (k : String),
      (mustGetS t env k).isPanic = true ↔ ∃ e, tryGetS t env k = .error e) := by
  refine ⟨fun env arg => rfl, fun t env k => ?_⟩
  cases t <;>
    simp only [mustGetS, tryGetS, mustGetEnv, mustGetEnvInt, mustGetEnvFloat32,
      mustGetEnvFloat64, mustGetEnvBool, mustGetEnvTime, mustGetEnvDuration] <;>
    (split <;> simp_all [GoResult.isPanic])

/-! ## Claim C2: the accessor triple contract on failure -/

/-- C2: for every supported scalar type, key and fallback, when the variable
is unset/empty or its text fails to parse, TryGet returns an error (NotFound
when unset/empty, InvalidFormat on a parse failure), Get returns the
fallback, and MustGet panics carrying the same error. -/
theorem c2_scalar_triple (t : ScalarTy) (env : Env) (k : String) (fb : tyDenote t)
    (h : osGetenv env k = "" ∨ parseS t (osGetenv env k) = none) :
    ∃ e : GoenvError,
      tryGetS t env k = .error e ∧
      getS t env k fb = fb ∧
      mustGetS t env k = .panicked e ∧
      (osGetenv env k = "" → e = .notFound k) ∧
      (osGetenv env k ≠ "" → e = .invalidFormat (formatName t) (osGetenv env k)) := by
  by_cases hk : osGetenv env k = ""
  · refine ⟨.notFound k, ?_⟩
    cases t <;>
      simp [tryGetS, getS, mustGetS, tryGetEnv, tryGetEnvInt, tryGetEnvFloat32,
        tryGetEnvFloat64, tryGetEnvBool, tryGetEnvTime, tryGetEnvDuration, getEnv, getEnvInt,
        getEnvFloat32, getEnvFloat64, getEnvBool, getEnvTime, getEnvDuration, mustGetEnv,
        mustGetEnvInt, mustGetEnvFloat32, mustGetEnvFloat64, mustGetEnvBool, mustGetEnvTime,
        mustGetEnvDuration, hk]
  · rcases h with h | hp
    · exact absurd h hk
    · refine ⟨.invalidFormat (formatName t) (osGetenv env k), ?_⟩
      cases t
      · simp [parseS] at hp
      all_goals
        simp only [parseS] at hp
        simp [tryGetS, getS, mustGetS, tryGetEnv, tryGetEnvInt, tryGetEnvFloat32,
          tryGetEnvFloat64, tryGetEnvBool, tryGetEnvTime, tryGetEnvDuration, getEnv, getEnvInt,
          getEnvFloat32, getEnvFloat64, getEnvBool, getEnvTime, getEnvDuration, mustGetEnv,
          mustGetEnvInt, mustGetEnvFloat32, mustGetEnvFloat64, mustGetEnvBool, mustGetEnvTime,
          mustGetEnvDuration, formatName, hk, hp]

/-- Witness for C2 at the integer type with unparsable text. -/
theorem c2_scalar_triple_witness :
    (osGetenv [("K", "abc")] "K" = "" ∨ parseS .integer (osGetenv [("K", "abc")] "K") = none) ∧
    (∃ e : GoenvError,
      tryGetS .integer [("K", "abc")] "K" = .error e ∧
      getS .integer [("K", "abc")] "K" 7 = 7 ∧
      mustGetS .integer [("K", "abc")] "K" = .panicked e ∧
      (osGetenv [("K", "abc")] "K" = "" → e = .notFound "K") ∧
      (osGetenv [("K", "abc")] "K" ≠ "" →
        e = .invalidFormat (formatName .integer) (osGetenv [("K", "abc")] "K"))) :=
  ⟨Or.inr (by decide), c2_scalar_triple .integer [("K", "abc")] "K" 7 (Or.inr (by decide))⟩

/-! ## Lemmas about the field loop -/

lemma eligible_iff {f : Field} : eligible f = true ↔ f.canSet = true ∧ f.goenvTag ≠ "" := by
  simp [eligible]

lemma isOkB_iff {x : Except GoenvError Value} : isOkB x = true ↔ ∃ w, x = .ok w := by
  cases x <;> simp [isOkB]

lemma loadGo_cons_skip {env : Env} {f : Field} (v : Value) (rest : List (Field × Value))
    (h : eligible f = false) :
    loadGo env ((f, v) :: rest) = ((loadGo env rest).1, (f, v) :: (loadGo env rest).2) := by
  simp only [loadGo]
  by_cases hc : f.canSet
  · have htag : f.goenvTag = "" := by
      simpa [eligible, hc] using h
    simp [hc, htag]
  · simp [hc]

lemma loadGo_cons_ok {env : Env} {f : Field} {w : Value} (v : Value) (rest : List (Field × Value))
    (helig : eligible f = true) (h : setField env f = .ok w) :
    loadGo env ((f, v) :: rest) = ((loadGo env rest).1, (f, w) :: (loadGo env rest).2) := by
  rw [eligible_iff] at helig
  simp only [loadGo]
  simp [helig.1, helig.2, h]

lemma loadGo_cons_error {env : Env} {f : Field} {e : GoenvError} (v : Value)
    (rest : List (Field × Value)) (helig : eligible f = true) (h : setField env f = .error e) :
    loadGo env ((f, v) :: rest) = (some (.fieldError f.name e), (f, v) :: rest) := by
  rw [eligible_iff] at helig
  simp only [loadGo]
  simp [helig.1, helig.2, h]

lemma loadedUpTo_zero (env : Env) (fs : List Field) : loadedUpTo env 0 fs = withZero fs := by
  induction fs with
  | nil => rfl
  | cons f fs ih => simp [loadedUpTo, withZero] at ih ⊢; exact ih

lemma loadedUpTo_getElem (env : Env) (j : Nat) (fs : List Field) (i : Nat) :
    (loadedUpTo env j fs)[i]? = (fs[i]?).map fun f =>
      (f, if i < j ∧ eligible f = true then getOk (setField env f) (zeroValue f.typ)
          else zeroValue f.typ) := by
  induction fs generalizing j i with
  | nil => cases j <;> simp [loadedUpTo]
  | cons f fs ih =>
    cases j with
    | zero =>
      cases i with
      | zero => simp [loadedUpTo]
      | succ i => simp [loadedUpTo, ih]
    | succ j =>
      cases i with
      | zero => simp [loadedUpTo]
      | succ i => simp [loadedUpTo, ih, Nat.succ_lt_succ_iff]

/-- Core behaviour of the field loop on a zero-initialised struct whose first
failing eligible field sits at index `j`: the loop stops there, wraps the
error with the field's name, and the struct state is exactly the first `j`
fields processed. -/
lemma loadGo_fail_spec (env : Env) (fs : List Field) (j : Nat) (fj : Field) (e : GoenvError)
    (hj : fs[j]? = some fj) (helig : eligible fj = true)
    (hfail : setField env fj = .error e)
    (hbefore : ∀ i fi, i < j → fs[i]? = some fi → eligible fi = true →
      isOkB (setField env fi) = true) :
    loadGo env (withZero fs) = (some (.fieldError fj.name e), loadedUpTo env j fs) := by
  induction fs generalizing j with
  | nil => simp at hj
  | cons f fs ih =>
    cases j with
    | zero =>
      simp only [List.getElem?_cons_zero, Option.some.injEq] at hj
      subst hj
      simp only [withZero, List.map_cons]
      rw [loadGo_cons_error _ _ helig hfail]
      rw [show (loadedUpTo env 0 (f :: fs)) = (f, zeroValue f.typ) :: loadedUpTo env 0 fs
        from rfl, loadedUpTo_zero]
      rfl
    | succ j =>
      simp only [List.getElem?_cons_succ] at hj
      have ihspec := ih j hj
        (fun i fi hij hfi helig2 => hbefore (i + 1) fi (by omega) (by simpa using hfi) helig2)
      by_cases helf : eligible f = true
      · obtain ⟨w, hw⟩ := isOkB_iff.mp
          (hbefore 0 f (by omega) (by simp) helf)
        simp only [withZero, List.map_cons]
        rw [loadGo_cons_ok _ _ helf hw]
        simp only [withZero] at ihspec
        rw [ihspec]
        simp [loadedUpTo, helf, hw, getOk]
      · simp only [withZero, List.map_cons]
        rw [loadGo_cons_skip _ _ (by simpa using helf)]
        simp only [withZero] at ihspec
        rw [ihspec]
        simp [loadedUpTo, helf]

/-! ## Lemmas about setField -/

lemma tryGetEnv_error_of {env : Env} {k : String} (h : osGetenv env k = "") :
    tryGetEnv env k = .error (.notFound k) := by
  simp [tryGetEnv, h]

lemma tryGetEnvInt_error_of {env : Env} {k : String}
    (h : osGetenv env k = "" ∨ atoi (osGetenv env k) = none) :
    ∃ err, tryGetEnvInt env k = .error err := by
  by_cases hk : osGetenv env k = ""
  · exact ⟨.notFound k, by simp [tryGetEnvInt, hk]⟩
  · rcases h with h | h
    · exact absurd h hk
    · exact ⟨.invalidFormat "integer" (osGetenv env k), by simp [tryGetEnvInt, hk, h]⟩

lemma tryGetEnvDuration_error_of {env : Env} {k : String}
    (h : osGetenv env k = "" ∨ parseDuration (osGetenv env k) = none) :
    ∃ err, tryGetEnvDuration env k = .error err := by
  by_cases hk : osGetenv env k = ""
  · exact ⟨.notFound k, by simp [tryGetEnvDuration, hk]⟩
  · rcases h with h | h
    · exact absurd h hk
    · exact ⟨.invalidFormat "duration" (osGetenv env k), by simp [tryGetEnvDuration, hk, h]⟩

lemma tryGetEnvFloat32_error_of {env : Env} {k : String}
    (h : osGetenv env k = "" ∨ parseFloatQ (osGetenv env k) = none) :
    ∃ err, tryGetEnvFloat32 env k = .error err := by
  by_cases hk : osGetenv env k = ""
  · exact ⟨.notFound k, by simp [tryGetEnvFloat32, hk]⟩
  · rcases h with h | h
    · exact absurd h hk
    · exact ⟨.invalidFormat "float32" (osGetenv env k), by simp [tryGetEnvFloat32, hk, h]⟩

lemma tryGetEnvFloat64_error_of {env : Env} {k : String}
    (h : osGetenv env k = "" ∨ parseFloatQ (osGetenv env k) = none) :
    ∃ err, tryGetEnvFloat64 env k = .error err := by
  by_cases hk : osGetenv env k = ""
  · exact ⟨.notFound k, by simp [tryGetEnvFloat64, hk]⟩
  · rcases h with h | h
    · exact absurd h hk
    · exact ⟨.invalidFormat "float64" (osGetenv env k), by simp [tryGetEnvFloat64, hk, h]⟩

lemma tryGetEnvBool_error_of {env : Env} {k : String}
    (h : osGetenv env k = "" ∨ parseBool (osGetenv env k) = none) :
    ∃ err, tryGetEnvBool env k = .error err := by
  by_cases hk : osGetenv env k = ""
  · exact ⟨.notFound k, by simp [tryGetEnvBool, hk]⟩
  · rcases h with h | h
    · exact absurd h hk
    · exact ⟨.invalidFormat "bool" (osGetenv env k), by simp [tryGetEnvBool, hk, h]⟩

lemma tryGetEnvTime_error_of {env : Env} {k : String}
    (h : osGetenv env k = "" ∨ parseRFC3339 (osGetenv env k) = none) :
    ∃ err, tryGetEnvTime env k = .error err := by
  by_cases hk : osGetenv env k = ""
  · exact ⟨.notFound k, by simp [tryGetEnvTime, hk]⟩
  · rcases h with h | h
    · exact absurd h hk
    · exact ⟨.invalidFormat "time" (osGetenv env k), by simp [tryGetEnvTime, hk, h]⟩

/-- When the environment holds a non-empty text that parses at the field's
type, `setField` stores exactly the parsed value — whatever the fallback tag
holds. -/
lemma setField_ok_of_fieldParse {env : Env} {f : Field} {v : Value}
    (hne : osGetenv env f.goenvTag ≠ "")
    (hp : fieldParse f.typ (osGetenv env f.goenvTag) = some v) :
    setField env f = .ok v := by
  cases ht : f.typ <;> rw [ht] at hp <;>
    simp only [fieldParse, kindOf, reduceIte, Option.map_eq_some', Option.some.injEq,
      reduceCtorEq] at hp
  -- string: the environment text is stored as-is
  · subst hp
    simp [setField, kindOf, ht, tryGetEnv, hne]
  all_goals
    obtain ⟨w, hw, rfl⟩ := hp
    simp [setField, kindOf, ht, tryGetEnvInt, tryGetEnvDuration, tryGetEnvFloat32,
      tryGetEnvFloat64, tryGetEnvBool, tryGetEnvTime, hne, hw]

/-- When the environment path fails, the fallback tag is non-empty and the
fallback literal fails to parse at the field's type, `setField` reports the
invalid-fallback error naming the literal. -/
lemma setField_invalidFallback {env : Env} {f : Field}
    (hsup : isSupported f.typ = true)
    (henvfail : osGetenv env f.goenvTag = "" ∨ fieldParse f.typ (osGetenv env f.goenvTag) = none)
    (hfb : f.fallbackTag ≠ "")
    (hbad : fieldParse f.typ f.fallbackTag = none) :
    setField env f = .error (.invalidFallback (fallbackKindName f.typ) f.fallbackTag) := by
  cases ht : f.typ <;> rw [ht] at hsup henvfail hbad <;>
    (try simp [isSupported, kindOf] at hsup) <;>
    (try simp only [fieldParse, kindOf, reduceIte, Option.map_eq_none', reduceCtorEq]
      at henvfail hbad)
  · obtain ⟨err, herr⟩ := tryGetEnvInt_error_of henvfail
    simp [setField, kindOf, ht, herr, hfb, hbad, fallbackKindName]
  · obtain ⟨err, herr⟩ := tryGetEnvInt_error_of henvfail
    simp [setField, kindOf, ht, herr, hfb, hbad, fallbackKindName]
  · obtain ⟨err, herr⟩ := tryGetEnvInt_error_of henvfail
    simp [setField, kindOf, ht, herr, hfb, hbad, fallbackKindName]
  · obtain ⟨err, herr⟩ := tryGetEnvInt_error_of henvfail
    simp [setField, kindOf, ht, herr, hfb, hbad, fallbackKindName]
  · obtain ⟨err, herr⟩ := tryGetEnvInt_error_of henvfail
    simp [setField, kindOf, ht, herr, hfb, hbad, fallbackKindName]
  · obtain ⟨err, herr⟩ := tryGetEnvDuration_error_of henvfail
    simp [setField, kindOf, ht, herr, hfb, hbad, fallbackKindName]
  · obtain ⟨err, herr⟩ := tryGetEnvFloat32_error_of henvfail
    simp [setField, kindOf, ht, herr, hfb, hbad, fallbackKindName]
  · obtain ⟨err, herr⟩ := tryGetEnvFloat64_error_of henvfail
    simp [setField, kindOf, ht, herr, hfb, hbad, fallbackKindName]
  · obtain ⟨err, herr⟩ := tryGetEnvBool_error_of henvfail
    simp [setField, kindOf, ht, herr, hfb, hbad, fallbackKindName]
  · obtain ⟨err, herr⟩ := tryGetEnvTime_error_of henvfail
    simp [setField, kindOf, ht, herr, hfb, hbad, fallbackKindName]

/-! ## Claim C1: first failure stops Load, no rollback, suffix untouched -/

/-- C1: on a zero-initialised struct, when the first eligible field whose
population fails sits at index `j`, the field loop returns that error wrapped
with the field's name; every earlier eligible field keeps the value it was
assigned, every earlier ineligible field stays zero, and the failing field
and everything after it remain zero-valued. -/
theorem c1_load_stops_at_first_failure (env : Env) (fs : List Field) (j : Nat) (fj : Field)
    (e : GoenvError) (hj : fs[j]? = some fj) (helig : eligible fj = true)
    (hfail : setField env fj = .error e)
    (hbefore : ∀ i fi, i < j → fs[i]? = some fi → eligible fi = true →
      isOkB (setField env fi) = true) :
    (loadGo env (withZero fs)).1 = some (.fieldError fj.name e) ∧
    (∀ i fi, fs[i]? = some fi → i < j → eligible fi = true →
      (loadGo env (withZero fs)).2[i]? =
        some (fi, getOk (setField env fi) (zeroValue fi.typ))) ∧
    (∀ i fi, fs[i]? = some fi → i < j → eligible fi = false →
      (loadGo env (withZero fs)).2[i]? = some (fi, zeroValue fi.typ)) ∧
    (∀ i fi, fs[i]? = some fi → j ≤ i →
      (loadGo env (withZero fs)).2[i]? = some (fi, zeroValue fi.typ)) := by
  have hspec := loadGo_fail_spec env fs j fj e hj helig hfail hbefore
  rw [hspec]
  refine ⟨rfl, ?_, ?_, ?_⟩
  · intro i fi hfi hij helig2
    rw [loadedUpTo_getElem, hfi]
    simp [hij, helig2]
  · intro i fi hfi hij helig2
    rw [loadedUpTo_getElem, hfi]
    simp [helig2]
  · intro i fi hfi hij
    rw [loadedUpTo_getElem, hfi]
    have hni : ¬ i < j := by omega
    simp [hni]

/-- Witness for C1: a three-field struct failing at the middle field; the
first field keeps its assigned value, the rest stay zero. -/
theorem c1_load_stops_at_first_failure_witness :
    (loadGo c1Env (withZero c1Fields)).1 =
      some (.fieldError "B" (.notFound "BMISS")) ∧
    (loadGo c1Env (withZero c1Fields)).2 =
      [(⟨"A", .intT, true, "AK", ""⟩, .int 1),
       (⟨"B", .intT, true, "BMISS", ""⟩, .int 0),
       (⟨"C", .stringT, true, "CK", ""⟩, .str "")] :=
  ⟨(c1_load_stops_at_first_failure c1Env c1Fields 1 ⟨"B", .intT, true, "BMISS", ""⟩
      (.notFound "BMISS") (by decide) (by decide) (by decide)
      (by
        intro i fi hij hfi helig2
        interval_cases i
        simp only [c1Fields, List.getElem?_cons_zero, Option.some.injEq] at hfi
        subst hfi
        decide)).1,
    by decide⟩

/-! ## Claim C3: a valid environment value wins; the fallback is never parsed -/

/-- C3: when the environment holds a non-empty value for the binding key that
parses at the field's type, `setField` stores the parsed environment value
whatever literal sits in the fallback tag — so a malformed fallback causes no
error — and the field loop populates the field with it. -/
theorem c3_environment_preferred_over_fallback (env : Env) (f : Field) (v : Value)
    (hne : osGetenv env f.goenvTag ≠ "")
    (hp : fieldParse f.typ (osGetenv env f.goenvTag) = some v) :
    (∀ fb : String, setField env { f with fallbackTag := fb } = .ok v) ∧
    (∀ (fb : String) (w : Value), eligible f = true →
      loadGo env [({ f with fallbackTag := fb }, w)] =
        (none, [({ f with fallbackTag := fb }, v)])) := by
  have hset : ∀ fb : String, setField env { f with fallbackTag := fb } = .ok v := by
    intro fb
    exact setField_ok_of_fieldParse (f := { f with fallbackTag := fb }) hne hp
  refine ⟨hset, fun fb w helig => ?_⟩
  rw [loadGo_cons_ok (f := { f with fallbackTag := fb }) w [] helig (hset fb)]
  rfl

/-- Witness for C3: `OVR_PORT=9000` beats a malformed fallback literal. -/
theorem c3_environment_preferred_over_fallback_witness :
    setField [("OVR_PORT", "9000")] ⟨"Port", .intT, true, "OVR_PORT", "notanumber"⟩ =
      .ok (.int (wrapInt 64 9000)) ∧
    loadGo [("OVR_PORT", "9000")] [(⟨"Port", .intT, true, "OVR_PORT", "notanumber"⟩, .int 0)] =
      (none, [(⟨"Port", .intT, true, "OVR_PORT", "notanumber"⟩, .int (wrapInt 64 9000))]) ∧
    wrapInt 64 9000 = 9000 ∧ atoi "notanumber" = none :=
  ⟨(c3_environment_preferred_over_fallback [("OVR_PORT", "9000")]
      ⟨"Port", .intT, true, "OVR_PORT", ""⟩ (.int (wrapInt 64 9000)) (by decide) (by decide)).1
      "notanumber",
    (c3_environment_preferred_over_fallback [("OVR_PORT", "9000")]
      ⟨"Port", .intT, true, "OVR_PORT", ""⟩ (.int (wrapInt 64 9000)) (by decide) (by decide)).2
      "notanumber" (.int 0) (by decide),
    by decide, by decide⟩

/-! ## Claim C4: malformed fallback literal fails Load with InvalidFallback -/

/-- C4: for an eligible field of a supported type whose environment path
fails and whose non-empty fallback literal itself fails to parse, `setField`
returns the invalid-fallback error identifying the literal, and the field
loop stops there wrapping the field's name, leaving the field unassigned. -/
theorem c4_invalid_fallback_fails_load (env : Env) (f : Field) (v : Value)
    (rest : List (Field × Value))
    (hsup : isSupported f.typ = true) (helig : eligible f = true)
    (henvfail : osGetenv env f.goenvTag = "" ∨ fieldParse f.typ (osGetenv env f.goenvTag) = none)
    (hfb : f.fallbackTag ≠ "") (hbad : fieldParse f.typ f.fallbackTag = none) :
    setField env f = .error (.invalidFallback (fallbackKindName f.typ) f.fallbackTag) ∧
    loadGo env ((f, v) :: rest) =
      (some (.fieldError f.name (.invalidFallback (fallbackKindName f.typ) f.fallbackTag)),
        (f, v) :: rest) := by
  have h := setField_invalidFallback hsup henvfail hfb hbad
  exact ⟨h, loadGo_cons_error v rest helig h⟩

/-- Witness for C4: `fallback:"notanumber"` on an integer field with the
variable unset. -/
theorem c4_invalid_fallback_fails_load_witness :
    setField [] ⟨"Port", .intT, true, "FB_PORT", "notanumber"⟩ =
      .error (.invalidFallback (fallbackKindName .intT) "notanumber") ∧
    loadGo [] [(⟨"Port", .intT, true, "FB_PORT", "notanumber"⟩, .int 0)] =
      (some (.fieldError "Port" (.invalidFallback (fallbackKindName .intT) "notanumber")),
        [(⟨"Port", .intT, true, "FB_PORT", "notanumber"⟩, .int 0)]) ∧
    fallbackKindName .intT = "integer" :=
  ⟨(c4_invalid_fallback_fails_load [] ⟨"Port", .intT, true, "FB_PORT", "notanumber"⟩ (.int 0) []
      (by decide) (by decide) (Or.inl (by decide)) (by decide) (by decide)).1,
    (c4_invalid_fallback_fails_load [] ⟨"Port", .intT, true, "FB_PORT", "notanumber"⟩ (.int 0) []
      (by decide) (by decide) (Or.inl (by decide)) (by decide) (by decide)).2,
    by decide⟩

/-! ## Claim C5: duration fields route to the duration parser -/

/-- C5: a field whose static type is the duration type is fed the
environment text — and, on failure, the fallback literal — through the
duration parser: a successful duration parse populates the field with its
nanosecond count, and a duration-parse failure with no fallback is reported
as a duration formatting error, regardless of what the plain integer parser
would say about the text. -/
theorem c5_duration_field_routing (env : Env) (f : Field)
    (hty : f.typ = .durationT) :
    (∀ (s : String) (d : Int) (v : Value), osGetenv env f.goenvTag = s → s ≠ "" →
      parseDuration s = some d → eligible f = true →
      loadGo env [(f, v)] = (none, [(f, .int (wrapInt 64 d))])) ∧
    (∀ d : Int, (osGetenv env f.goenvTag = "" ∨ parseDuration (osGetenv env f.goenvTag) = none) →
      f.fallbackTag ≠ "" → parseDuration f.fallbackTag = some d →
      setField env f = .ok (.int (wrapInt 64 d))) ∧
    (∀ s : String, osGetenv env f.goenvTag = s → s ≠ "" → parseDuration s = none →
      f.fallbackTag = "" → setField env f = .error (.invalidFormat "duration" s)) := by
  refine ⟨?_, ?_, ?_⟩
  · intro s d v hs hne hd helig
    subst hs
    have hset : setField env f = .ok (.int (wrapInt 64 d)) :=
      setField_ok_of_fieldParse hne (by simp [fieldParse, kindOf, hty, hd, setIntV])
    rw [loadGo_cons_ok _ _ helig hset]
    rfl
  · intro d henvfail hfb hd
    obtain ⟨err, herr⟩ := tryGetEnvDuration_error_of henvfail
    simp [setField, kindOf, hty, herr, hfb, hd, setIntV]
  · intro s hs hne hp hfbe
    subst hs
    simp [setField, kindOf, hty, tryGetEnvDuration, hne, hp, hfbe]

/-- Witness for C5: `"30s"` populates a duration field with 30 seconds in
nanoseconds, while `"30"` — valid for the integer parser — is rejected by
the duration route. -/
theorem c5_duration_field_routing_witness :
    (parseDuration "30s" = some 30000000000 ∧
      loadGo [("TK", "30s")] [(⟨"T", .durationT, true, "TK", ""⟩, .int 0)] =
        (none, [(⟨"T", .durationT, true, "TK", ""⟩, .int (wrapInt 64 30000000000))]) ∧
      wrapInt 64 30000000000 = 30000000000) ∧
    (atoi "30" = some 30 ∧
      setField [("TK", "30")] ⟨"T", .durationT, true, "TK", ""⟩ =
        .error (.invalidFormat "duration" "30")) :=
  ⟨⟨by decide,
    (c5_duration_field_routing [("TK", "30s")] ⟨"T", .durationT, true, "TK", ""⟩
      (by decide)).1 "30s" 30000000000 (.int 0) (by decide) (by decide) (by decide) (by decide),
    by decide⟩,
   ⟨by decide,
    (c5_duration_field_routing [("TK", "30")] ⟨"T", .durationT, true, "TK", ""⟩
      (by decide)).2.2 "30" (by decide) (by decide) (by decide) (by decide)⟩⟩

/-! ## Claim C8: narrow signed integer fields wrap two's-complement style -/

/-- C8: for a field of a signed integer kind narrower than the native width
(int8, int16, int32), a successfully parsed environment value — or, when the
lookup/parse fails, a successfully parsed fallback literal — is stored
reduced modulo 2^w with two's-complement sign, and the load succeeds with no
range error. -/
theorem c8_narrow_int_fields_wrap (env : Env) (f : Field)
    (hty : f.typ = .int8T ∨ f.typ = .int16T ∨ f.typ = .int32T) :
    (∀ (s : String) (n : Int) (v : Value), osGetenv env f.goenvTag = s → s ≠ "" →
      atoi s = some n → eligible f = true →
      loadGo env [(f, v)] = (none, [(f, .int (wrapInt (intWidthOf f.typ) n))])) ∧
    (∀ n : Int, (osGetenv env f.goenvTag = "" ∨ atoi (osGetenv env f.goenvTag) = none) →
      f.fallbackTag ≠ "" → atoi f.fallbackTag = some n →
      setField env f = .ok (.int (wrapInt (intWidthOf f.typ) n))) := by
  rcases hty with hty | hty | hty <;>
  · refine ⟨?_, ?_⟩
    · intro s n v hs hne hn helig
      subst hs
      have hset : setField env f = .ok (.int (wrapInt (intWidthOf f.typ) n)) :=
        setField_ok_of_fieldParse hne
          (by simp [fieldParse, kindOf, hty, hn, setIntV, intWidthOf])
      rw [loadGo_cons_ok _ _ helig hset]
      rfl
    · intro n henvfail hfb hn
      obtain ⟨err, herr⟩ := tryGetEnvInt_error_of henvfail
      simp [setField, kindOf, hty, herr, hfb, hn, setIntV, intWidthOf]

/-- Witness for C8: environment text `"300"` lands in an int8 field as 44,
and a fallback literal `"300"` does the same. -/
theorem c8_narrow_int_fields_wrap_witness :
    (loadGo [("PK", "300")] [(⟨"P", .int8T, true, "PK", ""⟩, .int 0)] =
      (none, [(⟨"P", .int8T, true, "PK", ""⟩, .int (wrapInt (intWidthOf .int8T) 300))])) ∧
    setField [] ⟨"P", .int8T, true, "PK", "300"⟩ =
      .ok (.int (wrapInt (intWidthOf .int8T) 300)) ∧
    wrapInt (intWidthOf .int8T) 300 = 44 :=
  ⟨(c8_narrow_int_fields_wrap [("PK", "300")] ⟨"P", .int8T, true, "PK", ""⟩ (Or.inl rfl)).1
      "300" 300 (.int 0) (by decide) (by decide) (by decide) (by decide),
    (c8_narrow_int_fields_wrap [] ⟨"P", .int8T, true, "PK", "300"⟩ (Or.inl rfl)).2
      300 (Or.inl (by decide)) (by decide) (by decide),
    by decide⟩

/-! ## Claim C9: unsigned-integer fields are unsupported -/

/-- C9 (amended): `setField` on a field of any unsigned-integer kind always
returns the unsupported-field-type error, whatever the environment holds;
consequently the field loop fails with that error wrapped with the field's
name whenever such a field is eligible and no earlier eligible field fails
first. -/
theorem c9_unsigned_kinds_unsupported :
    (∀ (env : Env) (f : Field), isUintKind f.typ = true →
      setField env f = .error (.unsupportedFieldKind (kindErrName f.typ))) ∧
    (∀ (env : Env) (fs : List Field) (j : Nat) (fj : Field),
      fs[j]? = some fj → isUintKind fj.typ = true → eligible fj = true →
      (∀ i fi, i < j → fs[i]? = some fi → eligible fi = true →
        isOkB (setField env fi) = true) →
      (loadGo env (withZero fs)).1 =
        some (.fieldError fj.name (.unsupportedFieldKind (kindErrName fj.typ)))) := by
  have base : ∀ (env : Env) (f : Field), isUintKind f.typ = true →
      setField env f = .error (.unsupportedFieldKind (kindErrName f.typ)) := by
    intro env f hu
    cases ht : f.typ <;> rw [ht] at hu <;> simp [isUintKind] at hu <;>
      simp [setField, kindOf, ht, kindErrName]
  refine ⟨base, ?_⟩
  intro env fs j fj hj hu helig hbefore
  rw [loadGo_fail_spec env fs j fj _ hj helig (base env fj hu) hbefore]

/-- Counterexample to C9 as stated: on a struct whose uint8 field is preceded
by a failing required int field, Load fails with the earlier field's
not-found error, not with the unsupported-field-type error of the unsigned
field — even though the environment provides the unsigned field's variable. -/
theorem c9_unsigned_kinds_unsupported_counterexample :
    (loadGo c9Env (withZero c9Fields)).1 = some (.fieldError "A" (.notFound "C9MISS")) ∧
    (loadGo c9Env (withZero c9Fields)).1 ≠
      some (.fieldError "B" (.unsupportedFieldKind "uint8")) := by
  constructor <;> decide

/-- Witness for C9: a lone eligible uint8 field makes Load fail with the
unsupported-field-type error even when its variable is set. -/
theorem c9_unsigned_kinds_unsupported_witness :
    setField c9Env ⟨"B", .uint8T, true, "C9B", ""⟩ =
      .error (.unsupportedFieldKind (kindErrName .uint8T)) ∧
    (loadGo c9Env (withZero [⟨"B", .uint8T, true, "C9B", ""⟩])).1 =
      some (.fieldError "B" (.unsupportedFieldKind (kindErrName .uint8T))) :=
  ⟨c9_unsigned_kinds_unsupported.1 c9Env ⟨"B", .uint8T, true, "C9B", ""⟩ (by decide),
    c9_unsigned_kinds_unsupported.2 c9Env [⟨"B", .uint8T, true, "C9B", ""⟩] 0
      ⟨"B", .uint8T, true, "C9B", ""⟩ (by decide) (by decide) (by decide)
      (by intro i fi hij hfi helig2; omega)⟩

/-! ## Round trips through the canonical text forms -/

lemma stripSign_digit {c : Char} (h : isDigitCh c = true) (cs : List Char) :
    stripSign (c :: cs) = (false, c :: cs) := by
  simp [stripSign, isDigitCh_ne_dash h, isDigitCh_ne_plus h]

lemma stripSign_dash (cs : List Char) : stripSign ('-' :: cs) = (true, cs) := by
  simp [stripSign]

lemma parseLegs_nil (fuel acc : Nat) : parseLegs fuel [] acc = some acc := by
  cases fuel <;> rfl

lemma parseLegs_ns (m : Nat) (fu : Nat) (acc : Nat) :
    parseLegs (fu + 1) (natCharsZ m ++ ['n', 's']) acc = some (acc + m * 1) := by
  obtain ⟨c, cs, hc⟩ := List.exists_cons_of_ne_nil
    (show natCharsZ m ++ ['n', 's'] ≠ [] by simp [natCharsZ_ne_nil m])
  have hsplit := takeWhile_dropWhile_append ['s']
    (natCharsZ_all m) (show isDigitCh 'n' = false by decide)
  rw [hc]
  simp only [parseLegs]
  rw [← hc, hsplit.1, hsplit.2, parseDigitsN_natCharsZ]
  have hu : (['n', 's'] : List Char).takeWhile (fun x => !isDigitCh x) = ['n', 's'] := by decide
  have hr : (['n', 's'] : List Char).dropWhile (fun x => !isDigitCh x) = [] := by decide
  rw [hu, hr]
  simp only [unitLookup, reduceIte]
  rw [parseLegs_nil]

lemma ns_form_ne_zero_list (m : Nat) : natCharsZ m ++ ['n', 's'] ≠ ['0'] := by
  intro hc
  have hlen := congrArg List.length hc
  have hpos : 0 < (natCharsZ m).length := List.length_pos.mpr (natCharsZ_ne_nil m)
  simp at hlen

/-- Round trip of the exact-nanoseconds duration literal through the
duration parser's model. -/
lemma parseDuration_ns_roundtrip {d : Int} (h1 : -(2 ^ 63) ≤ d) (h2 : d < 2 ^ 63) :
    parseDuration ⟨intChars d ++ ['n', 's']⟩ = some d := by
  have e1 : (2 : Nat) ^ 63 = 9223372036854775808 := by norm_num
  have e2 : (2 : Int) ^ 63 = 9223372036854775808 := by norm_num
  rw [e2] at h1 h2
  have hlen : 0 < (natCharsZ d.natAbs ++ ['n', 's']).length := by simp
  obtain ⟨fu, hfu⟩ : ∃ fu, (natCharsZ d.natAbs ++ ['n', 's']).length = fu + 1 :=
    ⟨(natCharsZ d.natAbs ++ ['n', 's']).length - 1, by omega⟩
  by_cases hd : d < 0
  · have hlist : intChars d ++ ['n', 's'] = '-' :: (natCharsZ d.natAbs ++ ['n', 's']) := by
      simp [intChars, hd]
    simp only [parseDuration, hlist, stripSign_dash]
    have hnz : natCharsZ d.natAbs ++ ['n', 's'] ≠ ['0'] := ns_form_ne_zero_list _
    have hnn : natCharsZ d.natAbs ++ ['n', 's'] ≠ [] := by simp [natCharsZ_ne_nil]
    rw [if_neg hnz, if_neg hnn, hfu, parseLegs_ns]
    simp only [Nat.zero_add, Nat.mul_one]
    rw [if_pos trivial, if_pos (by simp only [e1]; omega)]
    congr 1
    omega
  · obtain ⟨c, cs, hc⟩ := List.exists_cons_of_ne_nil (natCharsZ_ne_nil d.natAbs)
    have hall := natCharsZ_all d.natAbs
    have hcd : isDigitCh c = true := by
      rw [hc] at hall
      simp only [List.all_cons, Bool.and_eq_true] at hall
      exact hall.1
    have hlist : intChars d ++ ['n', 's'] = c :: (cs ++ ['n', 's']) := by
      simp [intChars, hd, hc]
    have hback : c :: (cs ++ ['n', 's']) = natCharsZ d.natAbs ++ ['n', 's'] := by
      rw [hc]
      simp
    simp only [parseDuration, hlist, stripSign_digit hcd]
    have hnz : natCharsZ d.natAbs ++ ['n', 's'] ≠ ['0'] := ns_form_ne_zero_list _
    have hnn : natCharsZ d.natAbs ++ ['n', 's'] ≠ [] := by simp [natCharsZ_ne_nil]
    rw [hback, if_neg hnz, if_neg hnn, hfu, parseLegs_ns]
    simp only [Nat.zero_add, Nat.mul_one, Bool.false_eq_true, if_false]
    rw [if_pos (by simp only [e1]; omega)]
    congr 1
    omega

lemma read2_pad2 {n : Nat} (h : n ≤ 99) (rest : List Char) :
    read2 (pad2 n ++ rest) = some (n, rest) := by
  have h1 : n / 10 % 10 < 10 := by omega
  have h2 : n % 10 < 10 := by omega
  simp [pad2, read2, digitCh_isDigit h1, digitCh_isDigit h2,
    digitVal_digitCh h1, digitVal_digitCh h2]
  omega

lemma pad4_eq_pad2 (n : Nat) : pad4 n = pad2 (n / 100) ++ pad2 (n % 100) := by
  have e1 : n / 1000 % 10 = n / 100 / 10 % 10 := by omega
  have e2 : n / 10 % 10 = n % 100 / 10 % 10 := by omega
  have e3 : n % 10 = n % 100 % 10 := by omega
  simp only [pad4, pad2, List.cons_append, List.nil_append, e1, e2, e3]

lemma read4_pad4 {n : Nat} (h : n ≤ 9999) (rest : List Char) :
    read4 (pad4 n ++ rest) = some (n, rest) := by
  rw [pad4_eq_pad2, List.append_assoc]
  simp only [read4, read2_pad2 (show n / 100 ≤ 99 by omega),
    read2_pad2 (show n % 100 ≤ 99 by omega)]
  simp
  omega

lemma expectCh_cons (c : Char) (l : List Char) : expectCh c (c :: l) = some l := by
  simp [expectCh]

lemma parseOffset_signed {sgn : Char} (hs : sgn = '+' ∨ sgn = '-') (a b : Nat)
    (ha : a ≤ 23) (hb : b ≤ 59) :
    parseOffset (sgn :: (pad2 a ++ (':' :: pad2 b))) =
      some (if sgn = '-' then -(((a * 60 + b : Nat)) : Int) else ((a * 60 + b : Nat) : Int)) := by
  have hz : (sgn :: (pad2 a ++ (':' :: pad2 b))) ≠ ['Z'] := by
    intro hc
    have := congrArg List.length hc
    simp [pad2] at this
  have hb2 := read2_pad2 (show b ≤ 99 by omega) ([] : List Char)
  rw [List.append_nil] at hb2
  simp only [parseOffset]
  rw [if_neg hz]
  simp only [read2_pad2 (show a ≤ 99 by omega), expectCh_cons, hb2]
  rw [if_pos hs]
  simp [ha, hb]

lemma daysInMonth_le (y m : Nat) : daysInMonth y m ≤ 31 := by
  unfold daysInMonth
  split
  · split <;> omega
  · split <;> omega

lemma parseOffset_fmtOffset {o : Int} (h : o.natAbs ≤ 23 * 60 + 59) :
    parseOffset (fmtOffset o) = some o := by
  by_cases h0 : o = 0
  · subst h0
    rfl
  · have hfmt : fmtOffset o =
        (if o < 0 then '-' else '+') ::
          (pad2 (o.natAbs / 60) ++ (':' :: pad2 (o.natAbs % 60))) := by
      simp [fmtOffset, h0, List.append_assoc]
    rw [hfmt, parseOffset_signed (by by_cases ho : o < 0 <;> simp [ho]) _ _
      (by omega) (by omega)]
    by_cases ho : o < 0
    · simp only [ho, if_true, reduceIte, if_pos]
      congr 1
      omega
    · rw [if_neg ho, if_neg (by decide)]
      congr 1
      omega

/-- Round trip of the RFC3339 formatter model through the RFC3339 parser
model. -/
lemma parseRFC3339_fmt {t : TimeRFC} (h : validTimeB t = true) :
    parseRFC3339 ⟨fmtRFC3339 t⟩ = some t := by
  have hv := h
  simp only [validTimeB, Bool.and_eq_true, decide_eq_true_eq] at h
  obtain ⟨h8, h9⟩ := h
  obtain ⟨h7, hs⟩ := h8
  obtain ⟨h6, hmi⟩ := h7
  obtain ⟨h5, hh⟩ := h6
  obtain ⟨h4, hd2⟩ := h5
  obtain ⟨h3, hd1⟩ := h4
  obtain ⟨h2, hm2⟩ := h3
  obtain ⟨hy, hm1⟩ := h2
  have hd99 : t.day ≤ 99 := le_trans hd2 (le_trans (daysInMonth_le _ _) (by omega))
  have hdata : (⟨fmtRFC3339 t⟩ : String).data = fmtRFC3339 t := rfl
  simp only [parseRFC3339, hdata, fmtRFC3339, List.append_assoc, List.cons_append,
    List.nil_append, Option.some_bind, read4_pad4 hy,
    read2_pad2 (show t.month ≤ 99 by omega), read2_pad2 hd99,
    read2_pad2 (show t.hour ≤ 99 by omega), read2_pad2 (show t.minute ≤ 99 by omega),
    read2_pad2 (show t.second ≤ 99 by omega), expectCh_cons, parseOffset_fmtOffset h9]
  have heta : (⟨t.year, t.month, t.day, t.hour, t.minute, t.second, t.offMin⟩ : TimeRFC) = t :=
    rfl
  rw [heta, if_pos hv]

lemma depowF_spec : ∀ (fuel p n : Nat), 2 ≤ p → 0 < n → n ≤ fuel →
    n = p ^ (depowF fuel p n).1 * (depowF fuel p n).2 ∧
    ¬ p ∣ (depowF fuel p n).2 ∧ 0 < (depowF fuel p n).2 := by
  intro fuel
  induction fuel with
  | zero => intro p n hp hn hf; omega
  | succ fuel ih =>
    intro p n hp hn hf
    simp only [depowF]
    split
    · rename_i hcond
      have hdvd : p ∣ n := Nat.dvd_of_mod_eq_zero hcond.2.2
      have hnp : 0 < n / p := Nat.div_pos (Nat.le_of_dvd hn hdvd) (by omega)
      have hlt : n / p < n := Nat.div_lt_self hn (by omega)
      obtain ⟨heq, hnd, hpos⟩ := ih p (n / p) hp hnp (by omega)
      refine ⟨?_, hnd, hpos⟩
      calc n = p * (n / p) := (Nat.mul_div_cancel' hdvd).symm
        _ = p * (p ^ (depowF fuel p (n / p)).1 * (depowF fuel p (n / p)).2) := by rw [← heq]
        _ = p ^ ((depowF fuel p (n / p)).1 + 1) * (depowF fuel p (n / p)).2 := by ring
    · rename_i hcond
      push_neg at hcond
      refine ⟨by simp, ?_, hn⟩
      intro hdvd
      exact hcond hp hn (Nat.mod_eq_zero_of_dvd hdvd)

lemma decExp_dvd {n k : Nat} (hn : 0 < n) (h : decExp n = some k) : n ∣ 10 ^ k := by
  simp only [decExp, depow] at h
  obtain ⟨a, c, hac⟩ : ∃ a c, depowF n 2 n = (a, c) := ⟨_, _, rfl⟩
  obtain ⟨he2, hd2, hp2⟩ := depowF_spec n 2 n (by omega) hn le_rfl
  rw [hac] at he2 hd2 hp2 h
  dsimp only at he2 hd2 hp2 h
  obtain ⟨b, d, hbd⟩ : ∃ b d, depowF c 5 c = (b, d) := ⟨_, _, rfl⟩
  obtain ⟨he5, hd5, hp5⟩ := depowF_spec c 5 c (by omega) hp2 le_rfl
  rw [hbd] at he5 hd5 hp5 h
  dsimp only at he5 hd5 hp5 h
  split at h
  · rename_i hone
    simp only [Option.some.injEq] at h
    subst h
    have hfact : n = 2 ^ a * 5 ^ b := by
      rw [he2, he5, hone, mul_one]
    calc n = 2 ^ a * 5 ^ b := hfact
      _ ∣ 2 ^ max a b * 5 ^ max a b :=
          mul_dvd_mul (pow_dvd_pow 2 (le_max_left a b)) (pow_dvd_pow 5 (le_max_right a b))
      _ = 10 ^ max a b := by
          rw [← mul_pow]
          norm_num
  · simp at h

lemma digitsVal_cons_zero (l : List Char) : digitsVal ('0' :: l) = digitsVal l := by
  have h0 : (0 : Nat) * 10 + digitVal '0' = 0 := by decide
  simp only [digitsVal, List.foldl_cons, h0]

lemma digitsVal_replicate_zero (z : Nat) (l : List Char) :
    digitsVal (List.replicate z '0' ++ l) = digitsVal l := by
  induction z with
  | zero => simp
  | succ z ih =>
    simp only [List.replicate_succ, List.cons_append, digitsVal_cons_zero]
    exact ih

lemma replicate_zero_all (z : Nat) : (List.replicate z '0').all isDigitCh = true := by
  induction z with
  | zero => rfl
  | succ z ih =>
    simp only [List.replicate_succ, List.all_cons, ih, Bool.and_true]
    decide

/-- Sign-aware reading of an exact decimal value as the rational it denotes. -/
lemma decVal_eq_rat {q : Rat} {k m : Nat} (hm : m * q.den = q.num.natAbs * 10 ^ k) :
    (if q.num < 0 then -((m : Rat) / (10 : Rat) ^ k) else ((m : Rat) / (10 : Rat) ^ k)) = q := by
  have h10 : ((10 : Rat) ^ k) ≠ 0 := by positivity
  have hden : ((q.den : Rat)) ≠ 0 := by exact_mod_cast q.den_nz
  have hmZ : (m : ℤ) * (q.den : ℤ) = (q.num.natAbs : ℤ) * 10 ^ k := by exact_mod_cast hm
  by_cases hneg : q.num < 0
  · rw [if_pos hneg]
    have habs : (q.num.natAbs : ℤ) = -q.num := by omega
    rw [habs] at hmZ
    have hq : (m : ℚ) / (10 : ℚ) ^ k = (-(q.num : ℚ)) / (q.den : ℚ) := by
      rw [div_eq_div_iff h10 hden]
      exact_mod_cast hmZ
    rw [hq, neg_div, neg_neg, Rat.num_div_den]
  · rw [if_neg hneg]
    have habs : (q.num.natAbs : ℤ) = q.num := by omega
    rw [habs] at hmZ
    have hq : (m : ℚ) / (10 : ℚ) ^ k = ((q.num : ℚ)) / (q.den : ℚ) := by
      rw [div_eq_div_iff h10 hden]
      exact_mod_cast hmZ
    rw [hq, Rat.num_div_den]

/-- The value a parsed decimal numeral denotes, matched against a target
rational via its integer/fraction digit strings. -/
lemma decValue_eq {q : Rat} {k m : Nat} {neg : Bool} (ip fp : List Char)
    (hsign : neg = true ↔ q.num < 0)
    (hip : digitsVal ip = m / 10 ^ k) (hfp : digitsVal fp = m % 10 ^ k)
    (hlen : fp.length = k) (hm : m * q.den = q.num.natAbs * 10 ^ k) :
    decValue neg ip fp = q := by
  have hval := decVal_eq_rat hm
  simp only [decValue, hip, hfp, hlen]
  have hM : m / 10 ^ k * 10 ^ k + m % 10 ^ k = m := by
    rw [Nat.mul_comm]
    exact Nat.div_add_mod m (10 ^ k)
  rw [hM]
  by_cases hneg : q.num < 0
  · rw [if_pos hneg] at hval
    rw [hsign.mpr hneg, if_pos rfl]
    push_cast
    exact hval
  · rw [if_neg hneg] at hval
    have hnf : neg = false := by
      cases neg
      · rfl
      · exact absurd (hsign.mp rfl) hneg
    rw [hnf, if_neg (by simp)]
    push_cast
    exact hval

/-- Round trip of the decimal float formatter model through the float
parser model, for rationals with a power-of-ten denominator. -/
lemma parseFloatQ_canon {q : Rat} (hq : (decExp q.den).isSome = true) :
    parseFloatQ (canonFloatQ q) = some q := by
  obtain ⟨k, hk⟩ := Option.isSome_iff_exists.mp hq
  have hden : 0 < q.den := q.den_pos
  have hdvd : q.den ∣ 10 ^ k := decExp_dvd hden hk
  obtain ⟨m, hmdef⟩ : ∃ m, q.num.natAbs * 10 ^ k / q.den = m := ⟨_, rfl⟩
  have hm : m * q.den = q.num.natAbs * 10 ^ k := by
    rw [← hmdef]
    exact Nat.div_mul_cancel (hdvd.mul_left _)
  have hcanon : canonFloatQ q = ⟨(if q.num < 0 then ['-'] else []) ++ natCharsZ (m / 10 ^ k) ++
      (if k = 0 then [] else '.' ::
        (List.replicate (k - (natCharsZ (m % 10 ^ k)).length) '0' ++ natCharsZ (m % 10 ^ k)))⟩ := by
    simp only [canonFloatQ, hk, hmdef]
  rw [hcanon]
  by_cases hk0 : k = 0
  · subst hk0
    simp only [pow_zero, Nat.div_one, reduceIte, List.append_nil] at hm ⊢
    by_cases hneg : q.num < 0
    · have hlist : ((if q.num < 0 then ['-'] else []) ++ natCharsZ m : List Char) =
          '-' :: natCharsZ m := by
        simp [hneg]
      rw [hlist]
      have htake := takeWhile_all (natCharsZ_all m)
      simp only [parseFloatQ, stripSign_dash, htake.1, htake.2, reduceIte]
      rw [if_neg (natCharsZ_ne_nil m)]
      refine congrArg some (decValue_eq _ _ (by simp [hneg]) ?_ ?_ rfl (k := 0) (by simpa using hm))
      · simp [digitsVal_natCharsZ]
      · simp [Nat.mod_one]
        rfl
    · obtain ⟨c, cs, hc⟩ := List.exists_cons_of_ne_nil (natCharsZ_ne_nil m)
      have hcd : isDigitCh c = true := by
        have hall := natCharsZ_all m
        rw [hc] at hall
        simp only [List.all_cons, Bool.and_eq_true] at hall
        exact hall.1
      have hlist : ((if q.num < 0 then ['-'] else []) ++ natCharsZ m : List Char) = c :: cs := by
        simp [hneg, hc]
      rw [hlist]
      have htake := takeWhile_all (natCharsZ_all m)
      rw [hc] at htake
      simp only [parseFloatQ, stripSign_digit hcd, htake.1, htake.2, reduceIte]
      rw [if_neg (by rw [← hc]; exact natCharsZ_ne_nil m)]
      refine congrArg some (decValue_eq _ _ (by simp [hneg]) ?_ ?_ rfl (k := 0) (by simpa using hm))
      · rw [← hc]
        simp [digitsVal_natCharsZ]
      · simp [Nat.mod_one]
        rfl
  · have hfrac_lt : m % 10 ^ k < 10 ^ k := Nat.mod_lt _ (by positivity)
    have hflen : (natCharsZ (m % 10 ^ k)).length ≤ k := natCharsZ_length_le (by omega) hfrac_lt
    obtain ⟨z, hz⟩ : ∃ z, k - (natCharsZ (m % 10 ^ k)).length = z := ⟨_, rfl⟩
    have hfp_len : (List.replicate z '0' ++ natCharsZ (m % 10 ^ k)).length = k := by
      simp only [List.length_append, List.length_replicate]
      omega
    have hfp_all : ((List.replicate z '0' ++ natCharsZ (m % 10 ^ k)).all isDigitCh) = true := by
      rw [List.all_append, replicate_zero_all, natCharsZ_all]
      rfl
    have hfp_val : digitsVal (List.replicate z '0' ++ natCharsZ (m % 10 ^ k)) = m % 10 ^ k := by
      rw [digitsVal_replicate_zero, digitsVal_natCharsZ]
    have hsplit := takeWhile_dropWhile_append
      (List.replicate z '0' ++ natCharsZ (m % 10 ^ k)) (natCharsZ_all (m / 10 ^ k))
      (show isDigitCh '.' = false by decide)
    by_cases hneg : q.num < 0
    · have hlist : ((if q.num < 0 then ['-'] else []) ++ natCharsZ (m / 10 ^ k) ++
          (if k = 0 then [] else '.' ::
            (List.replicate (k - (natCharsZ (m % 10 ^ k)).length) '0' ++
              natCharsZ (m % 10 ^ k))) : List Char) =
          '-' :: (natCharsZ (m / 10 ^ k) ++
            ('.' :: (List.replicate z '0' ++ natCharsZ (m % 10 ^ k)))) := by
        simp [hneg, hk0, hz]
      rw [hlist]
      simp only [parseFloatQ, stripSign_dash, hsplit.1, hsplit.2]
      rw [if_neg (by simp), if_pos (by simp)]
      simp only [List.tail_cons]
      rw [if_pos ⟨hfp_all, Or.inl (natCharsZ_ne_nil _)⟩]
      exact congrArg some (decValue_eq _ _ (by simp [hneg]) (digitsVal_natCharsZ _) hfp_val
        hfp_len hm)
    · obtain ⟨c, cs, hc⟩ := List.exists_cons_of_ne_nil (natCharsZ_ne_nil (m / 10 ^ k))
      have hcd : isDigitCh c = true := by
        have hall := natCharsZ_all (m / 10 ^ k)
        rw [hc] at hall
        simp only [List.all_cons, Bool.and_eq_true] at hall
        exact hall.1
      have hlist : ((if q.num < 0 then ['-'] else []) ++ natCharsZ (m / 10 ^ k) ++
          (if k = 0 then [] else '.' ::
            (List.replicate (k - (natCharsZ (m % 10 ^ k)).length) '0' ++
              natCharsZ (m % 10 ^ k))) : List Char) =
          c :: (cs ++ ('.' :: (List.replicate z '0' ++ natCharsZ (m % 10 ^ k)))) := by
        simp [hneg, hk0, hz, hc]
      have hback : c :: (cs ++ ('.' :: (List.replicate z '0' ++ natCharsZ (m % 10 ^ k)))) =
          natCharsZ (m / 10 ^ k) ++ ('.' :: (List.replicate z '0' ++ natCharsZ (m % 10 ^ k))) := by
        rw [hc]
        simp
      rw [hlist]
      simp only [parseFloatQ, stripSign_digit hcd]
      rw [hback]
      simp only [hsplit.1, hsplit.2]
      rw [if_neg (by simp), if_pos (by simp)]
      simp only [List.tail_cons]
      rw [if_pos ⟨hfp_all, Or.inl (natCharsZ_ne_nil _)⟩]
      exact congrArg some (decValue_eq _ _ (by simp [hneg]) (digitsVal_natCharsZ _) hfp_val
        hfp_len hm)

/-! ## Claim C6: canonical round trip through the environment -/

/-- Counterexample to C6 as stated: the empty string is a value of the text
type whose canonical text form is empty, and setting the entry to it makes
TryGet report NotFound instead of returning the value. -/
theorem c6_canonical_roundtrip_counterexample :
    canonS .text "" = "" ∧
    ¬ tryGetS .text (setEnv [] "K" (canonS .text "")) "K" = .ok "" :=
  ⟨rfl, by decide⟩

/-- C6 (amended): for every supported scalar type and every valid literal
whose canonical text form is non-empty, setting the environment entry to that
canonical form makes TryGet return a value equal to the literal. -/
theorem c6_canonical_roundtrip (t : ScalarTy) (env : Env) (k : String) (v : tyDenote t)
    (hv : validLitB t v = true) (hne : canonS t v ≠ "") :
    tryGetS t (setEnv env k (canonS t v)) k = .ok v := by
  have hlook : osGetenv (setEnv env k (canonS t v)) k = canonS t v := osGetenv_setEnv env k _
  cases t
  · simp only [canonS] at hlook hne ⊢
    simp [tryGetS, tryGetEnv, hlook, hne]
  · simp only [validLitB, decide_eq_true_eq] at hv
    simp only [canonS] at hlook hne ⊢
    simp [tryGetS, tryGetEnvInt, hlook, hne, atoi_itoa hv.1 hv.2]
  · simp only [validLitB] at hv
    simp only [canonS] at hlook hne ⊢
    simp [tryGetS, tryGetEnvFloat32, hlook, hne, parseFloatQ_canon hv]
  · simp only [validLitB] at hv
    simp only [canonS] at hlook hne ⊢
    simp [tryGetS, tryGetEnvFloat64, hlook, hne, parseFloatQ_canon hv]
  · simp only [canonS] at hlook hne ⊢
    cases v
    · simp [tryGetS, tryGetEnvBool, hlook, hne,
        show parseBool "false" = some false from by decide]
    · simp [tryGetS, tryGetEnvBool, hlook, hne,
        show parseBool "true" = some true from by decide]
  · simp only [validLitB] at hv
    simp only [canonS] at hlook hne ⊢
    simp [tryGetS, tryGetEnvTime, hlook, hne, parseRFC3339_fmt hv]
  · simp only [validLitB, decide_eq_true_eq] at hv
    simp only [canonS] at hlook hne ⊢
    simp [tryGetS, tryGetEnvDuration, hlook, hne, parseDuration_ns_roundtrip hv.1 hv.2]

/-- Witness for C6 at the integer type with the literal -42. -/
theorem c6_canonical_roundtrip_witness :
    (validLitB .integer (-42) = true ∧ canonS .integer (-42) ≠ "") ∧
    tryGetS .integer (setEnv [] "K" (canonS .integer (-42))) "K" = .ok (-42) :=
  ⟨⟨by decide, by decide⟩,
    c6_canonical_roundtrip .integer [] "K" (-42) (by decide) (by decide)⟩

end Goenv
